import Mathlib

/-!
# lvhuat/invoke: the request builder and its execution pipeline

A shallow embedding of `client.go`, `engine.go` and `report.go`, with the
types of `export.go`.  Pointer receivers become explicit state passing: a
method takes the client (or engine) value and returns the value after the
call; the package variables are a record that `Init` takes and returns.  What
the code does to the outside (discovery, the payload thunk, the HTTP exchange,
the circuit layer, telemetry, logging) is recorded, in order, in a trace of
events.  A Go `panic` is the `Except.error` of a builder call.
-/

namespace Invoke

/-! ## Go values -/

/-- A Go `error` value, identified by its message; `nil` is `none` of the option. -/
abbrev GoError := String

/-- A Go `[]byte`. -/
abbrev Bytes := List Nat

/-- A Go `map[string]V` that is not nil: its entries, one per key. -/
abbrev GoMap (V : Type) := List (String × V)

/-- The keys of a map are pairwise distinct. -/
def GoMap.WF {V : Type} (m : GoMap V) : Prop := (m.map Prod.fst).Nodup

/-- Read `m[k]` with the comma-ok form: `none` when the key is absent. -/
def GoMap.get? {V : Type} : GoMap V → String → Option V
  | [], _ => none
  | (k', v) :: t, k => if k' = k then some v else GoMap.get? t k

/-- Read `m[k]` where `zero` is the zero value of the element type. -/
def GoMap.getD {V : Type} (m : GoMap V) (k : String) (zero : V) : V :=
  (GoMap.get? m k).getD zero

/-- The assignment `m[k] = v`. -/
def GoMap.set {V : Type} : GoMap V → String → V → GoMap V
  | [], k, v => [(k, v)]
  | (k', v') :: t, k, v => if k' = k then (k, v) :: t else (k', v') :: GoMap.set t k v

/-- Read `m[k]` on a map that may be nil (a nil map reads as an empty one). -/
def lookup? {V : Type} (m : Option (GoMap V)) (k : String) : Option V :=
  match m with
  | none => none
  | some es => GoMap.get? es k

/-- A `context.Context`: a context of the caller, or one derived by `context.WithCancel`. -/
inductive Ctx where
  | base (id : Nat)
  | withCancel (parent : Ctx)
  deriving DecidableEq, Repr

/-- The fields of `hystrix.CommandConfig` that the package sets. -/
structure CommandConfig where
  Timeout : Int
  MaxConcurrentRequests : Int
  ErrorPercentThreshold : Int
  deriving DecidableEq, Repr

/-- The type `DiscoveryFunc` of export.go: from a name to addresses, identifiers and an error
(nil slices read as empty lists). -/
abbrev DiscoveryFunc := String → List String × List String × Option GoError

/-- The struct `service` as engine.go constructs it. -/
structure service where
  discovery : Option DiscoveryFunc
  name : String
  useTracing : Bool
  useCircuit : Bool
  circuitConfig : CommandConfig

/-- The method `Name()` of the interface `Service`. -/
def service.Name (s : service) : String := s.name

/-- The struct `client` of client.go. -/
structure client where
  service : service
  path : String
  createTime : Int
  errInProcess : Option GoError
  method : String
  host : String
  scheme : String
  serverid : String
  circuitConfig : CommandConfig
  headers : Option (GoMap String)
  queries : Option (GoMap (List String))
  routes : Option (GoMap String)
  payload : Option (Unit → Except GoError Bytes)
  ctx : Option Ctx
  useTracing : Bool
  useCircuit : Bool
  fallback : Option (GoError → Option GoError)

def HttpHeaderContentType : String := "Content-Type"

def HttpHeaderContentTypeJSON : String := "application/json"

/-- The value of `time.Millisecond`, in nanoseconds. -/
def Millisecond : Int := 1000000

namespace client

def circuitName (c : client) : String := c.serverid

def hytrixCommand (c : client) : String := c.serverid ++ c.method ++ c.path

def tracingName (c : client) : String := c.serverid

/-! ## The builder methods -/

def Tls (c : client) : client :=
  if c.errInProcess.isSome then c
  else { c with scheme := "https" }

/-- The parameter of `Fallback` has no name in the source: the body cannot use it. -/
def Fallback (c : client) (_ : GoError → Option GoError) : client :=
  if c.errInProcess.isSome then c
  else c

def Header (c : client) (headerName headerValue : String) : client :=
  if c.errInProcess.isSome then c
  else
    match c.headers with
    | none => { c with headers := some [(headerName, headerValue)] }
    | some hs => { c with headers := some (GoMap.set hs headerName headerValue) }

def Headers (c : client) (headers : GoMap String) : client :=
  if c.errInProcess.isSome then c
  else
    let hs := match c.headers with
      | none => []
      | some hs => hs
    { c with headers := some (headers.foldl (fun acc kv => GoMap.set acc kv.1 kv.2) hs) }

def Query (c : client) (queryName queryValue : String) : client :=
  if c.errInProcess.isSome then c
  else
    match c.queries with
    | none => { c with queries := some [(queryName, [queryValue])] }
    | some qs =>
      let queries := GoMap.getD qs queryName []
      let queries := queries ++ [queryValue]
      { c with queries := some (GoMap.set qs queryName queries) }

def QueryArray (c : client) (queryName : String) (queryValues : List String) : client :=
  if c.errInProcess.isSome then c
  else
    match c.queries with
    | none => { c with queries := some [(queryName, queryValues)] }
    | some qs =>
      let queries := GoMap.getD qs queryName []
      let queries := queries ++ queryValues
      { c with queries := some (GoMap.set qs queryName queries) }

def Queries (c : client) (queryValues : GoMap (List String)) : client :=
  if c.errInProcess.isSome then c
  else
    match c.queries with
    | none => { c with queries := some [] }
    | some qs =>
      { c with queries := some (queryValues.foldl
          (fun acc kv => GoMap.set acc kv.1 (GoMap.getD acc kv.1 [] ++ kv.2)) qs) }

def Route (c : client) (routeName routeTo : String) : client :=
  if c.errInProcess.isSome then c
  else
    match c.routes with
    | none => { c with routes := some [(routeName, routeTo)] }
    | some rs => { c with routes := some (GoMap.set rs routeName routeTo) }

def Routes (c : client) (routes : GoMap String) : client :=
  if c.errInProcess.isSome then c
  else
    let rs := match c.routes with
      | none => []
      | some rs => rs
    { c with routes := some (routes.foldl (fun acc kv => GoMap.set acc kv.1 kv.2) rs) }

/-- The method `Json`; `marshal ()` is what `json.Marshal(payload)` yields when the thunk runs. -/
def Json (c : client) (marshal : Unit → Except GoError Bytes) : client :=
  if c.errInProcess.isSome then c
  else
    let c := c.Header HttpHeaderContentType HttpHeaderContentTypeJSON
    { c with payload := some (fun _ => marshal ()) }

def Body (c : client) (contentType : String) (payload : Bytes) : client :=
  if c.errInProcess.isSome then c
  else
    let c := c.Header HttpHeaderContentType contentType
    { c with payload := some (fun _ => Except.ok payload) }

def Context (c : client) (ctx : Option Ctx) : client :=
  if c.errInProcess.isSome then c
  else { c with ctx := ctx }

def Hystrix (c : client) (timeOutMillisecond maxConn thresholdPercent : Int) : client :=
  if c.errInProcess.isSome then c
  else
    { c with circuitConfig :=
        { Timeout := timeOutMillisecond
          MaxConcurrentRequests := maxConn
          ErrorPercentThreshold := thresholdPercent } }

/-- The method `Timeout`; the duration is in nanoseconds, `Except.error` is the panic. The
quotient of an `int64` by a million fits an `int` of 64 bits, so the conversion keeps it. -/
def Timeout (c : client) (timeout : Int) : Except String client :=
  if c.errInProcess.isSome then .ok c
  else if timeout ≤ 0 then .error "bad timeout"
  else .ok { c with circuitConfig := { c.circuitConfig with Timeout := Int.tdiv timeout Millisecond } }

def MaxConcurrent (c : client) (concurrenct : Int) : Except String client :=
  if c.errInProcess.isSome then .ok c
  else if concurrenct ≤ 0 then .error "bad concurrenct"
  else .ok { c with circuitConfig := { c.circuitConfig with MaxConcurrentRequests := concurrenct } }

def ErrorThreshold (c : client) (threshold : Int) : Except String client :=
  if c.errInProcess.isSome then .ok c
  else if threshold ≤ 0 then .error "bad threshold"
  else .ok { c with circuitConfig := { c.circuitConfig with ErrorPercentThreshold := threshold } }

end client

/-! ## The outside world -/

/-- An `*http.Request` as `build` leaves it. -/
structure Request where
  method : String
  url : String
  body : Bytes
  ctx : Option Ctx
  header : List (String × String)
  deriving DecidableEq, Repr

/-- An `*http.Response`: its status code, its header, and what reading its body yields. -/
structure Response where
  StatusCode : Int
  Header : GoMap (List String)
  Body : Except GoError Bytes

/-- The value that `json.Unmarshal` stores in the caller's output. -/
abbrev Decoded := String

/-- What the circuit layer does with a command: run its body, or reject it with an error
without running it. A timeout, where the body runs on while `hystrix.Do` has returned, is
concurrent and has no counterpart here. -/
inductive CircuitDecision where
  | run
  | reject (err : GoError)
  deriving DecidableEq, Repr

/-- What the code does to the outside, one event per call. -/
inductive Event where
  | remote (serviceName : String)
  | payloadEval
  | httpSend (req : Request)
  | readBody
  | unmarshal
  | closeBody
  | configureCommand (name : String) (cfg : CommandConfig)
  | hystrixDo (name : String) (fallback : Option (GoError → Option GoError))
  | cancel (ctx : Ctx)
  | reportFailed (code infc tname tip : String)
  | reportSuccess (infc tname tip : String)
  | log (failed : Bool)

/-- The events so far, oldest first. -/
abbrev Trace := List Event

def Event.isRemote : Event → Bool
  | .remote _ => true
  | _ => false

def Event.isPayloadEval : Event → Bool
  | .payloadEval => true
  | _ => false

def Event.isHttpSend : Event → Bool
  | .httpSend _ => true
  | _ => false

/-- The collaborators of one call: code outside client.go, and the libraries. -/
structure Env where
  /-- The method `Remote()` of the service: (host, identifier) or an error. -/
  Remote : service → Except GoError (String × String)
  /-- The function `parsePath(path, routes)`. -/
  parsePath : String → Option (GoMap String) → Except GoError String
  /-- The function `makeUrl(scheme, host, path, queries)`. -/
  makeUrl : String → String → String → Option (GoMap (List String)) → Except GoError String
  /-- The error of `http.NewRequest(method, url, body)`, if any. -/
  newRequest : String → String → Option GoError
  /-- The exchange `cli.Do(request)`. -/
  httpDo : Request → Except GoError Response
  /-- The decoder `json.Unmarshal(rsp, out)`. -/
  unmarshal : Bytes → Except GoError Decoded
  /-- Whether `hystrix.Do` runs the body of the named command. -/
  circuit : String → CircuitDecision
  /-- The error `hystrix.Do` returns for a failed or rejected command, given the fallback. -/
  tryFallback : Option (GoError → Option GoError) → GoError → Option GoError
  /-- The switch `monitor.EnableReportMonitor()`. -/
  monitorEnabled : Bool
  /-- The key under which `http.Header.Set` stores a header. -/
  canonicalHeaderKey : String → String
  /-- The reading `time.Now()` at the start of the call, as `UnixNano()`. -/
  beginTime : Int

/-- The package variables `doLogger` and `doLoggerParam` of export.go. -/
structure LogFlags where
  doLogger : Bool := true
  doLoggerParam : Bool := false
  deriving DecidableEq, Repr

/-- What `exec` returns and leaves behind; `cancel` is what it stored through its pointer. -/
structure ExecResult where
  status : Int
  err : Option GoError
  out : Option Decoded
  cancel : Option Ctx
  c : client
  w : Trace

/-- What `getResp` returns and leaves behind. -/
structure RespResult where
  resp : Option Response
  err : Option GoError
  cancel : Option Ctx
  c : client
  w : Trace

namespace client

/-! ## Request construction and execution -/

def build (env : Env) (c : client) (w : Trace) : Except GoError Request × client × Trace :=
  let w := w ++ [Event.remote c.service.Name]
  match env.Remote c.service with
  | .error err => (.error ("discovery failed," ++ err), c, w)
  | .ok (host, serviceNode) =>
    let c := { c with host := host, serverid := serviceNode }
    match env.parsePath c.path c.routes with
    | .error err => (.error err, c, w)
    | .ok path =>
      if c.host = "" then (.error "remote is emtpy", c, w)
      else
        match env.makeUrl c.scheme c.host path c.queries with
        | .error err => (.error err, c, w)
        | .ok url =>
          let evaluated : Except GoError Bytes × Trace :=
            match c.payload with
            | none => (.ok [], w)
            | some payload => (payload (), w ++ [Event.payloadEval])
          match evaluated with
          | (.error err, w) => (.error err, c, w)
          | (.ok b, w) =>
            match env.newRequest c.method url with
            | some err => (.error ("create http request failed," ++ err), c, w)
            | none =>
              let request : Request :=
                { method := c.method, url := url, body := b, ctx := c.ctx
                  header := match c.headers with
                    | none => []
                    | some hs => hs }
              (.ok request, c, w)

/-- The guarded statement `client.ctx, *cancel = context.WithCancel(client.ctx)` of `exec` and
`getResp`: the client afterwards and the cancel function stored through the pointer, if any;
`hasCancel` says that the pointer is not nil. -/
def deriveCtx (c : client) (hasCancel : Bool) : client × Option Ctx :=
  if hasCancel then
    match c.ctx with
    | some cx => ({ c with ctx := some (Ctx.withCancel cx) }, some (Ctx.withCancel cx))
    | none => (c, none)
  else (c, none)

/-- The method `exec`; `hasCancel` says that its `cancel` pointer is not nil. -/
def exec (env : Env) (c : client) (w : Trace) (hasCancel : Bool) : ExecResult :=
  match c.errInProcess with
  | some e => { status := 0, err := some e, out := none, cancel := none, c := c, w := w }
  | none =>
    let derived := (c.deriveCtx hasCancel).2
    let c := (c.deriveCtx hasCancel).1
    match c.build env w with
    | (.error err, c, w) =>
      { status := 0, err := some err, out := none, cancel := derived, c := c, w := w }
    | (.ok request, c, w) =>
      let w := w ++ [Event.httpSend request]
      match env.httpDo request with
      | .error err =>
        { status := 0, err := some err, out := none, cancel := derived, c := c, w := w }
      | .ok resp =>
        if resp.StatusCode < 200 ∨ resp.StatusCode ≥ 300 then
          { status := resp.StatusCode
            err := some ("reponse with bad status," ++ toString resp.StatusCode)
            out := none, cancel := derived, c := c, w := w }
        else
          let w := w ++ [Event.readBody]
          match resp.Body with
          | .error _ =>
            { status := resp.StatusCode, err := some "Read response body failed"
              out := none, cancel := derived, c := c, w := w }
          | .ok rsp =>
            let w := w ++ [Event.unmarshal]
            match env.unmarshal rsp with
            | .error _ =>
              { status := 0, err := some "marshal result body failed"
                out := none, cancel := derived, c := c, w := w ++ [Event.closeBody] }
            | .ok v =>
              { status := resp.StatusCode, err := none
                out := some v, cancel := derived, c := c, w := w ++ [Event.closeBody] }

/-- The method `getResp`; `hasCancel` says that its `cancel` pointer is not nil. -/
def getResp (env : Env) (c : client) (w : Trace) (hasCancel : Bool) : RespResult :=
  match c.errInProcess with
  | some e => { resp := none, err := some e, cancel := none, c := c, w := w }
  | none =>
    let derived := (c.deriveCtx hasCancel).2
    let c := (c.deriveCtx hasCancel).1
    match c.build env w with
    | (.error err, c, w) => { resp := none, err := some err, cancel := derived, c := c, w := w }
    | (.ok request, c, w) =>
      let w := w ++ [Event.httpSend request]
      match env.httpDo request with
      | .error err => { resp := none, err := some err, cancel := derived, c := c, w := w }
      | .ok resp => { resp := some resp, err := none, cancel := derived, c := c, w := w }

def updateHystrix (c : client) (w : Trace) : Trace :=
  let hytrixCmd := c.hytrixCommand
  w ++ [Event.configureCommand hytrixCmd c.circuitConfig]

/-! ## Telemetry (report.go) -/

def reportErrorToMonitor (c : client) (code : String) (w : Trace) : Trace :=
  let infc := "ACTIVE_" ++ c.method ++ "_" ++ c.path
  w ++ [Event.reportFailed code infc c.service.Name c.host]

def reportSuccessToMonitor (c : client) (w : Trace) : Trace :=
  let infc := "ACTIVE_" ++ c.method ++ "_" ++ c.path
  w ++ [Event.reportSuccess infc c.service.Name c.host]

/-- The call `resp.Header.Set(key, value)`. -/
def headerSet (env : Env) (resp : Response) (key value : String) : Response :=
  { resp with Header := GoMap.set resp.Header (env.canonicalHeaderKey key) [value] }

def processResponseMonitorReport (env : Env) (c : client) (resp : Option Response) (w : Trace) :
    Option Response × Trace :=
  if env.monitorEnabled = false then (resp, w)
  else
    match resp with
    | none => (none, c.reportErrorToMonitor "-1" w)
    | some resp =>
      let infc := "ACTIVE_" ++ c.method ++ "_" ++ c.path
      let resp := headerSet env resp "Infc" infc
      let resp := headerSet env resp "TName" c.service.Name
      let resp := headerSet env resp "Endpoint" c.host
      let resp := headerSet env resp "BeginTime" (toString (Int.tdiv env.beginTime 1000))
      (some resp, w)

def processExecMonitorReport (env : Env) (c : client) (code : Int) (err : Option GoError)
    (w : Trace) : Trace :=
  if env.monitorEnabled = false then w
  else
    match err with
    | some _ => c.reportErrorToMonitor (toString code) w
    | none => c.reportSuccessToMonitor w

/-! ## The entry points -/

/-- The method `Exec`: the result of `exec`, after the circuit layer, telemetry and logging. -/
def Exec (env : Env) (flags : LogFlags) (c : client) (w : Trace) : ExecResult :=
  let r : ExecResult :=
    if !c.useCircuit then c.exec env w false
    else
      let w := c.updateHystrix w
      let name := c.hytrixCommand
      let fallback := c.fallback
      let w := w ++ [Event.hystrixDo name fallback]
      let r : ExecResult :=
        match env.circuit name with
        | .run =>
          let r := c.exec env w true
          match r.err with
          | none => r
          | some err => { r with err := env.tryFallback fallback err }
        | .reject err =>
          { status := 0, err := env.tryFallback fallback err, out := none, cancel := none
            c := c, w := w }
      match r.err, r.cancel with
      | some _, some cx => { r with w := r.w ++ [Event.cancel cx] }
      | _, _ => r
  let w := processExecMonitorReport env r.c r.status r.err r.w
  let w := if flags.doLogger then w ++ [Event.log r.err.isSome] else w
  { r with w := w }

/-- The method `response`, which `Response` calls. -/
def response (env : Env) (flags : LogFlags) (c : client) (w : Trace) : RespResult :=
  let r : RespResult :=
    if !c.useCircuit then c.getResp env w false
    else
      let w := c.updateHystrix w
      let name := c.hytrixCommand
      let fallback := c.fallback
      let w := w ++ [Event.hystrixDo name fallback]
      let r : RespResult :=
        match env.circuit name with
        | .run =>
          let r := c.getResp env w true
          match r.err with
          | none => r
          | some err => { r with err := env.tryFallback fallback err }
        | .reject err =>
          { resp := none, err := env.tryFallback fallback err, cancel := none, c := c, w := w }
      match r.err, r.cancel with
      | some _, some cx => { r with w := r.w ++ [Event.cancel cx] }
      | _, _ => r
  let reported := processResponseMonitorReport env r.c r.resp r.w
  let w := reported.2
  let w :=
    if flags.doLogger then
      let w :=
        if flags.doLoggerParam then
          match r.c.payload with
          | some _ => w ++ [Event.payloadEval]
          | none => w
        else w
      w ++ [Event.log r.err.isSome]
    else w
  { r with resp := reported.1, w := w }

def Response (env : Env) (flags : LogFlags) (c : client) (w : Trace) : RespResult :=
  c.response env flags w

end client

/-! ## The builder calls as data -/

/-- One call of a builder method, with its arguments. -/
inductive BuilderCall where
  | Tls
  | Fallback (fn : GoError → Option GoError)
  | Header (headerName headerValue : String)
  | Headers (headers : GoMap String)
  | Query (queryName queryValue : String)
  | QueryArray (queryName : String) (queryValues : List String)
  | Queries (queryValues : GoMap (List String))
  | Route (routeName routeTo : String)
  | Routes (routes : GoMap String)
  | Json (marshal : Unit → Except GoError Bytes)
  | Body (contentType : String) (payload : Bytes)
  | Context (ctx : Option Ctx)
  | Hystrix (timeOutMillisecond maxConn thresholdPercent : Int)
  | Timeout (timeout : Int)
  | MaxConcurrent (concurrenct : Int)
  | ErrorThreshold (threshold : Int)

/-- Make the call on a client: the client afterwards, or the panic. -/
def BuilderCall.run : BuilderCall → client → Except String client
  | .Tls, c => .ok c.Tls
  | .Fallback fn, c => .ok (c.Fallback fn)
  | .Header k v, c => .ok (c.Header k v)
  | .Headers m, c => .ok (c.Headers m)
  | .Query k v, c => .ok (c.Query k v)
  | .QueryArray k vs, c => .ok (c.QueryArray k vs)
  | .Queries m, c => .ok (c.Queries m)
  | .Route k v, c => .ok (c.Route k v)
  | .Routes m, c => .ok (c.Routes m)
  | .Json marshal, c => .ok (c.Json marshal)
  | .Body ct b, c => .ok (c.Body ct b)
  | .Context ctx, c => .ok (c.Context ctx)
  | .Hystrix t m p, c => .ok (c.Hystrix t m p)
  | .Timeout d, c => c.Timeout d
  | .MaxConcurrent n, c => c.MaxConcurrent n
  | .ErrorThreshold p, c => c.ErrorThreshold p

/-- Make the calls one after the other; a panic ends the chain. -/
def runCalls : List BuilderCall → client → Except String client
  | [], c => .ok c
  | call :: rest, c =>
    match call.run c with
    | .ok c => runCalls rest c
    | .error msg => .error msg

/-- The sequence a client holds for a query key (a nil slice reads as the empty one). -/
def client.querySeq (c : client) (k : String) : List String :=
  (lookup? c.queries k).getD []

/-! ## Parts of the repository outside client.go -/

/-- Modelled from the spec: the verb methods of `Service` (service.go is not among the
sources) "construct a new Client carrying (service, method, path, creation timestamp) with
default scheme http"; the circuit and tracing settings are those bound to the service, and
every other field has the zero value of its type. -/
def service.Method (s : service) (method path : String) (now : Int) : client :=
  { service := s, path := path, createTime := now, errInProcess := none
    method := method, host := "", scheme := "http", serverid := ""
    circuitConfig := s.circuitConfig
    headers := none, queries := none, routes := none, payload := none
    ctx := none, useTracing := s.useTracing, useCircuit := s.useCircuit, fallback := none }

/-- Modelled from the spec: the verb method `Get` of `Service`. -/
def service.Get (s : service) (path : String) (now : Int) : client :=
  s.Method "GET" path now

/-- Modelled from the spec: the value a route token stands for. A token without a name is
malformed, a token without an entry in the routes is unresolved; both fail as a routing
error. -/
def resolveToken (routes : Option (GoMap String)) (name : List Char) :
    Except GoError (List Char) :=
  if name = [] then .error "routing error: malformed token"
  else
    match lookup? routes (String.mk name) with
    | none => .error ("routing error: unresolved token " ++ String.mk name)
    | some v => .ok v.data

/-- Modelled from the spec: the scan of `parsePath` over the characters of the template;
`token` holds the name read so far when the scan is inside a token, `atStart` says that a
path segment starts here. A token is a colon at the start of a segment, followed by its
name up to the next slash. -/
def parsePathChars (routes : Option (GoMap String)) :
    List Char → Bool → Option (List Char) → Except GoError (List Char)
  | [], _, none => .ok []
  | [], _, some name => resolveToken routes name
  | ch :: rest, atStart, none =>
    if ch = ':' ∧ atStart = true then parsePathChars routes rest false (some [])
    else
      match parsePathChars routes rest (decide (ch = '/')) none with
      | .error err => .error err
      | .ok out => .ok (ch :: out)
  | ch :: rest, _, some name =>
    if ch = '/' then
      match resolveToken routes name with
      | .error err => .error err
      | .ok v =>
        match parsePathChars routes rest true none with
        | .error err => .error err
        | .ok out => .ok (v ++ '/' :: out)
    else parsePathChars routes rest false (some (name ++ [ch]))

/-- Modelled from the spec: `parsePath` (not among the sources) substitutes the named route
tokens of the path template from the routes mapping; "unresolved or malformed tokens fail
as a routing error". -/
def parsePath (path : String) (routes : Option (GoMap String)) : Except GoError String :=
  match parsePathChars routes path.data true none with
  | .error err => .error err
  | .ok out => .ok (String.mk out)

/-! ## Sample values -/

/-- The discovery function of `newEngine`. -/
def discoveryNotConfig : DiscoveryFunc := fun _ => ([], [], some "discovery not config")

def usersService : service :=
  { discovery := some discoveryNotConfig, name := "users", useTracing := false
    useCircuit := false, circuitConfig := { Timeout := 0, MaxConcurrentRequests := 0, ErrorPercentThreshold := 0 } }

/-- A service of an engine that was initialised with circuit breaking. -/
def guardedService (name : String) : service :=
  { discovery := some discoveryNotConfig, name := name, useTracing := false
    useCircuit := true
    circuitConfig := { Timeout := 60000, MaxConcurrentRequests := 2000, ErrorPercentThreshold := 20 } }

/-- A world whose discovery resolves every service to `remote`, and whose server answers
every request with the status `code` and the body `body`. -/
def worldWith (remote : Except GoError (String × String)) (code : Int) (body : Bytes) : Env :=
  { Remote := fun _ => remote
    parsePath := parsePath
    makeUrl := fun scheme host path _ => .ok (scheme ++ "://" ++ host ++ path)
    newRequest := fun _ _ => none
    httpDo := fun _ => .ok { StatusCode := code, Header := [], Body := .ok body }
    unmarshal := fun b => if b = [] then .error "unexpected end of JSON input" else .ok "decoded"
    circuit := fun _ => CircuitDecision.run
    tryFallback := fun fallback err =>
      match fallback with
      | none => some err
      | some fn => fn err
    monitorEnabled := false
    canonicalHeaderKey := fun k => k
    beginTime := 0 }

/-- A client whose sticky error slot is set. -/
def stuckClient : client :=
  { usersService.Get "/user/:id" 0 with
    errInProcess := some "boom"
    payload := some (fun _ => .ok [123, 125]) }

/-- A world in which discovery fails. -/
def noDiscovery : Env := worldWith (.error "discovery not config") 200 [1]

/-! ## Sequences of route calls -/

/-- One call of `Route` or of `Routes`. -/
inductive RouteCall where
  | Route (routeName routeTo : String)
  | Routes (routes : GoMap String)

def RouteCall.run : RouteCall → client → client
  | .Route k v, c => c.Route k v
  | .Routes m, c => c.Routes m

/-- The maps handed to `Routes` are maps: no key twice. -/
def RouteCall.WF : RouteCall → Prop
  | .Route _ _ => True
  | .Routes m => GoMap.WF m

/-- The value a call sets for the key, if it sets one. -/
def RouteCall.sets : RouteCall → String → Option String
  | .Route k v, k' => if k = k' then some v else none
  | .Routes m, k' => GoMap.get? m k'

def runRouteCalls : List RouteCall → client → client
  | [], c => c
  | call :: rest, c => runRouteCalls rest (call.run c)

/-- The last value that a sequence of calls sets for the key, if any call sets one. -/
def lastSet : List RouteCall → String → Option String
  | [], _ => none
  | call :: rest, k =>
    match lastSet rest k with
    | some v => some v
    | none => call.sets k

/-- The client of `Name("users").Get("/user/:id").Route("id","42")`. -/
def userClient : client := (usersService.Get "/user/:id" 0).Route "id" "42"

/-- The request that `build` makes for `userClient` when discovery resolves the host
10.0.0.5:8080. -/
def userRequest : Request :=
  { method := "GET", url := "http://10.0.0.5:8080/user/42", body := [], ctx := none, header := [] }

/-- A world in which discovery resolves every service to an empty host. -/
def emptyHost : Env := worldWith (.ok ("", "users-1")) 200 [1]

/-- A world in which discovery resolves each service to a node of its own. -/
def ownNodes : Env :=
  { worldWith (.ok ("", "")) 200 [1] with
    Remote := fun s => .ok ("10.0.0.5:8080", s.name ++ "-node") }

/-! ## The engine (engine.go) -/

/-- The type `ParseRspFunc`, declared outside the sources: a parser takes a response to the
decoded output or to an error. -/
abbrev ParseRspFunc := Response → Except GoError Decoded

/-- The struct `Option` of export.go (in Lean the name `Option` is taken); a nil function
is `none`, a duration is in nanoseconds. -/
structure InitOption where
  Discovery : Option DiscoveryFunc
  LoadBalanceMode : String
  UseTracing : Bool
  DoLogger : Bool
  DoLoggerParam : Bool
  UseCircuit : Bool
  DefaultTimeout : Int
  DefaultMaxConcurrentRequests : Int
  DefaultErrorPercentThreshold : Int
  ParseRsp : Option ParseRspFunc

/-- The value of `time.Minute`, in nanoseconds. -/
def Minute : Int := 60000000000

/-- The variable `ErrDiscoveryNotConfig`. -/
def ErrDiscoveryNotConfig : GoError := "discovery not config"

/-- The struct `engine`; its map is the one `newEngine` makes, so it is never nil, and the
lock has no part in a sequential run. -/
structure engine where
  dv : Option DiscoveryFunc
  serviceMap : GoMap service
  lbMode : String
  useTracing : Bool
  useCircuit : Bool
  circuitConfig : CommandConfig

namespace engine

/-- The method `Init` of the engine; it returns a nil error. -/
def Init (e : engine) (option : InitOption) : Option GoError × engine :=
  (none,
    { e with
      dv := option.Discovery
      lbMode := option.LoadBalanceMode
      useTracing := option.UseTracing
      useCircuit := option.UseCircuit
      circuitConfig :=
        { ErrorPercentThreshold := option.DefaultErrorPercentThreshold
          MaxConcurrentRequests := option.DefaultMaxConcurrentRequests
          Timeout := Int.tdiv option.DefaultTimeout Millisecond } })

def newService (e : engine) (serviceName : String) (discovery : Option DiscoveryFunc) : service :=
  { discovery := discovery
    name := serviceName
    useTracing := e.useTracing
    useCircuit := e.useCircuit
    circuitConfig := e.circuitConfig }

def newAddr (e : engine) (addr : String) : service :=
  let discovery : DiscoveryFunc := fun _ => ([addr], [addr], none)
  { discovery := some discovery
    name := addr
    useTracing := e.useTracing
    useCircuit := e.useCircuit
    circuitConfig := e.circuitConfig }

/-- The method `Service`: the service returned and the engine afterwards. -/
def Service (e : engine) (name : String) : service × engine :=
  match GoMap.get? e.serviceMap name with
  | some service => (service, e)
  | none =>
    let service := e.newService name e.dv
    (service, { e with serviceMap := GoMap.set e.serviceMap name service })

/-- The method `Addr`: the service returned and the engine afterwards. -/
def Addr (e : engine) (addr : String) : service × engine :=
  (e.newAddr addr, e)

end engine

def newEngine : engine :=
  { dv := some (fun _ => ([], [], some ErrDiscoveryNotConfig))
    serviceMap := []
    lbMode := ""
    useTracing := false
    useCircuit := false
    circuitConfig := { Timeout := 0, MaxConcurrentRequests := 0, ErrorPercentThreshold := 0 } }

/-- The package variables: `doLogger` and `doLoggerParam`, `defaultParseRsp`, `eng`. -/
structure Package where
  flags : LogFlags
  defaultParseRsp : ParseRspFunc
  eng : engine

/-- The package as its variable declarations leave it; `extractHttpResponse` is the parser
of that name, a function outside the sources. -/
def Package.initial (extractHttpResponse : ParseRspFunc) : Package :=
  { flags := { doLogger := true, doLoggerParam := false }
    defaultParseRsp := extractHttpResponse
    eng := newEngine }

/-- The function `Init`: the panic, or the error returned with the option (which `Init`
writes through its pointer) and the package variables afterwards. -/
def Init (extractHttpResponse : ParseRspFunc) (option : InitOption) (p : Package) :
    Except String (Option GoError × InitOption × Package) :=
  let p := { p with flags := { doLogger := option.DoLogger, doLoggerParam := option.DoLoggerParam } }
  let p := if option.ParseRsp.isSome then { p with defaultParseRsp := extractHttpResponse } else p
  let checked : Except String InitOption :=
    if option.UseCircuit then
      let timeout : Except String InitOption :=
        if option.DefaultTimeout = 0 then .ok { option with DefaultTimeout := Minute }
        else if option.DefaultTimeout < 0 then .error "bad timeout"
        else .ok option
      match timeout with
      | .error msg => .error msg
      | .ok option =>
        let concurrent : Except String InitOption :=
          if option.DefaultMaxConcurrentRequests = 0 then
            .ok { option with DefaultMaxConcurrentRequests := 2000 }
          else if option.DefaultMaxConcurrentRequests < 0 then .error "bad max concurrent"
          else .ok option
        match concurrent with
        | .error msg => .error msg
        | .ok option =>
          if option.DefaultErrorPercentThreshold = 0 then
            .ok { option with DefaultErrorPercentThreshold := 20 }
          else if option.DefaultErrorPercentThreshold < 0 ∨
              option.DefaultErrorPercentThreshold > 100 then .error "bad error threshold"
          else .ok option
    else .ok option
  match checked with
  | .error msg => .error msg
  | .ok option =>
    let r := p.eng.Init option
    .ok (r.1, option, { p with eng := r.2 })

/-- The function `Name` of export.go. -/
def Name (p : Package) (name : String) : service × Package :=
  let r := p.eng.Service name
  (r.1, { p with eng := r.2 })

/-- The number of evaluations of the payload thunk in a trace. -/
def payloadEvals (w : Trace) : Nat := w.countP Event.isPayloadEval

/-- The service registry holds this many entries for the name. -/
def engine.entriesFor (e : engine) (name : String) : Nat :=
  (e.serviceMap.map Prod.fst).count name

/-- Call `Service(name)` the given number of times: the services returned, in order, and
the engine afterwards. -/
def engine.Services (e : engine) (name : String) : Nat → List service × engine
  | 0 => ([], e)
  | n + 1 =>
    let first := e.Service name
    let rest := engine.Services first.2 name n
    (first.1 :: rest.1, rest.2)

/-- The steps of `build` before the payload: endpoint resolution, route substitution, the
host check and URL assembly all succeed for the client. -/
def reachesPayload (env : Env) (c : client) : Prop :=
  ∃ host node path url,
    env.Remote c.service = .ok (host, node) ∧
      env.parsePath c.path c.routes = .ok path ∧
      host ≠ "" ∧
      env.makeUrl c.scheme host path c.queries = .ok url

/-- A fresh client with a literal body, as `Name("users").Post("/users").Body(...)` gives. -/
def postClient : client := (usersService.Method "POST" "/users" 0).Body "text/plain" [104, 105]

/-- A world whose server answers 200 with a body that cannot be read to its end. -/
def brokenBody : Env :=
  { worldWith (.ok ("10.0.0.5:8080", "users-1")) 200 [] with
    httpDo := fun _ => .ok { StatusCode := 200, Header := [], Body := .error "unexpected EOF" } }

/-- A stand-in for the parser `extractHttpResponse`. -/
def standardParser : ParseRspFunc := fun _ => .ok "standard"

/-- A parser of the caller. -/
def customParser : ParseRspFunc := fun _ => .ok "custom"

/-- An option with circuit breaking off and all numeric defaults unset. -/
def plainOption : InitOption :=
  { Discovery := none, LoadBalanceMode := "", UseTracing := false, DoLogger := true
    DoLoggerParam := false, UseCircuit := false, DefaultTimeout := 0
    DefaultMaxConcurrentRequests := 0, DefaultErrorPercentThreshold := 0, ParseRsp := none }

/-- The error that `Init` returned, when it did not panic. -/
def returnedError (r : Except String (Option GoError × InitOption × Package)) :
    Option (Option GoError) :=
  match r with
  | .ok out => some out.1
  | .error _ => none

/-- The default circuit config of the engine after `Init`, when it did not panic. -/
def configAfter (r : Except String (Option GoError × InitOption × Package)) :
    Option CommandConfig :=
  match r with
  | .ok out => some out.2.2.eng.circuitConfig
  | .error _ => none

/-- The default response parser after `Init`, when it did not panic. -/
def parserAfter (r : Except String (Option GoError × InitOption × Package)) :
    Option ParseRspFunc :=
  match r with
  | .ok out => some out.2.2.defaultParseRsp
  | .error _ => none

/-- An option with circuit breaking off and numeric defaults out of range. -/
def wildOption : InitOption :=
  { plainOption with
    DefaultTimeout := -1, DefaultMaxConcurrentRequests := -1
    DefaultErrorPercentThreshold := 101 }

/-- An option that names a parser of the caller. -/
def parserOption : InitOption := { plainOption with ParseRsp := some customParser }

/-- An option with circuit breaking on and a timeout of 2.5 seconds. -/
def circuitOption : InitOption :=
  { plainOption with UseCircuit := true, DefaultTimeout := 2500000000 }

/-- From the trace `w` to the trace `w'` the payload thunk was not evaluated, or it was
evaluated once and the steps of `build` before the payload succeed for the client. -/
def evaluatesInBuild (env : Env) (c : client) (w w' : Trace) : Prop :=
  payloadEvals w' = payloadEvals w ∨
    (payloadEvals w' = payloadEvals w + 1 ∧ reachesPayload env c)

/-- Both logging flags set. -/
def logsBody : LogFlags := { doLogger := true, doLoggerParam := true }

/-- The evaluation of the payload thunk that the logging of `response` makes: one when both
logging flags are set and the client has a payload, none otherwise. -/
def loggedEvals (flags : LogFlags) (c : client) : Nat :=
  if flags.doLogger = true ∧ flags.doLoggerParam = true ∧ c.payload.isSome = true then 1 else 0

/-- An option that configures a discovery function, tracing and circuit breaking. -/
def liveOption : InitOption :=
  { plainOption with
    Discovery := some (fun _ => (["10.0.0.5:8080"], ["users-1"], none))
    UseTracing := true, UseCircuit := true }

/-- The option `liveOption` as `Init` leaves it: the unset numeric defaults replaced. -/
def liveOptionChecked : InitOption :=
  { liveOption with
    DefaultTimeout := Minute, DefaultMaxConcurrentRequests := 2000
    DefaultErrorPercentThreshold := 20 }

/-- The package after `Name("users")` and then `Init` with `liveOption`, from the start. -/
def livePackage : Package :=
  { flags := { doLogger := true, doLoggerParam := false }
    defaultParseRsp := standardParser
    eng := ((newEngine.Service "users").2.Init liveOptionChecked).2 }

/-! ## Maps -/

theorem GoMap.get?_set_self {V : Type} (m : GoMap V) (k : String) (v : V) :
    GoMap.get? (GoMap.set m k v) k = some v := by
  induction m with
  | nil => simp [GoMap.set, GoMap.get?]
  | cons e t ih =>
    obtain ⟨k', v'⟩ := e
    by_cases hk : k' = k
    · simp [GoMap.set, GoMap.get?, hk]
    · simp [GoMap.set, GoMap.get?, hk, ih]

theorem GoMap.get?_set_ne {V : Type} (m : GoMap V) (k k' : String) (v : V) (h : k' ≠ k) :
    GoMap.get? (GoMap.set m k v) k' = GoMap.get? m k' := by
  induction m with
  | nil =>
    have h' : ¬ k = k' := fun e => h e.symm
    simp [GoMap.set, GoMap.get?, h']
  | cons e t ih =>
    obtain ⟨k1, v1⟩ := e
    by_cases hk : k1 = k
    · have h' : ¬ k = k' := fun e => h e.symm
      have h1 : ¬ k1 = k' := by rw [hk]; exact h'
      simp [GoMap.set, GoMap.get?, hk, h', h1]
    · by_cases hk' : k1 = k'
      · subst hk'
        simp [GoMap.set, GoMap.get?, hk]
      · simp [GoMap.set, GoMap.get?, hk, hk', ih]

theorem GoMap.get?_eq_none_of_not_mem {V : Type} (m : GoMap V) (k : String)
    (h : k ∉ m.map Prod.fst) : GoMap.get? m k = none := by
  induction m with
  | nil => rfl
  | cons e t ih =>
    obtain ⟨k1, v1⟩ := e
    simp only [List.map_cons, List.mem_cons, not_or] at h
    have h1 : ¬ k1 = k := fun e => h.1 e.symm
    simp [GoMap.get?, h1, ih h.2]

/-- A range loop that assigns every entry of `m` leaves each key of `m` with the value
that `m` gives it, and every other key as it was. -/
theorem GoMap.get?_foldl_set {V : Type} (m : GoMap V) (hm : GoMap.WF m) (acc : GoMap V)
    (k : String) :
    GoMap.get? (m.foldl (fun acc kv => GoMap.set acc kv.1 kv.2) acc) k =
      (match GoMap.get? m k with
       | some v => some v
       | none => GoMap.get? acc k) := by
  induction m generalizing acc with
  | nil => simp [GoMap.get?]
  | cons e t ih =>
    obtain ⟨k1, v1⟩ := e
    have hnd : k1 ∉ t.map Prod.fst ∧ GoMap.WF t := by
      simpa [GoMap.WF] using hm
    rw [List.foldl_cons, ih hnd.2]
    by_cases hk : k1 = k
    · subst hk
      simp [GoMap.get?, GoMap.get?_eq_none_of_not_mem t k1 hnd.1, GoMap.get?_set_self]
    · have hk' : k ≠ k1 := fun e => hk e.symm
      simp [GoMap.get?, hk, GoMap.get?_set_ne _ _ _ _ hk']

/-! ## The sticky error -/

theorem BuilderCall.run_of_sticky (c : client) (e : GoError) (h : c.errInProcess = some e)
    (call : BuilderCall) : call.run c = .ok c := by
  cases call <;>
    simp [BuilderCall.run, client.Tls, client.Fallback, client.Header, client.Headers,
      client.Query, client.QueryArray, client.Queries, client.Route, client.Routes,
      client.Json, client.Body, client.Context, client.Hystrix, client.Timeout,
      client.MaxConcurrent, client.ErrorThreshold, h]

theorem runCalls_of_sticky (c : client) (e : GoError) (h : c.errInProcess = some e)
    (calls : List BuilderCall) : runCalls calls c = .ok c := by
  induction calls with
  | nil => rfl
  | cons call rest ih => simp [runCalls, BuilderCall.run_of_sticky c e h, ih]

/-- C1: on a client whose sticky error slot is set, every builder call, whatever its
arguments, returns normally with the very same client (so no field changes), and so does
every finite sequence of builder calls. -/
theorem sticky_error_makes_builders_noop (c : client) (h : c.errInProcess ≠ none) :
    (∀ call : BuilderCall, call.run c = .ok c) ∧
      (∀ calls : List BuilderCall, runCalls calls c = .ok c) := by
  obtain ⟨e, he⟩ := Option.ne_none_iff_exists'.mp h
  exact ⟨BuilderCall.run_of_sticky c e he, runCalls_of_sticky c e he⟩

theorem sticky_error_makes_builders_noop_witness :
    stuckClient.errInProcess ≠ none ∧
      ((∀ call : BuilderCall, call.run stuckClient = .ok stuckClient) ∧
        (∀ calls : List BuilderCall, runCalls calls stuckClient = .ok stuckClient)) :=
  ⟨by simp [stuckClient], sticky_error_makes_builders_noop stuckClient (by simp [stuckClient])⟩

/-! ## What `build` touches -/

/-- Of the client, `build` assigns only `host` and `serverid`; to the trace it adds the call
of `Remote()` and, at most, one evaluation of the payload thunk. -/
theorem client.build_frame (env : Env) (c : client) (w : Trace) :
    ((c.build env w).2.1 = c ∨
        ∃ host node, (c.build env w).2.1 = { c with host := host, serverid := node }) ∧
      ((c.build env w).2.2 = w ++ [Event.remote c.service.Name] ∨
        (c.build env w).2.2 = w ++ [Event.remote c.service.Name, Event.payloadEval]) := by
  unfold client.build
  rcases env.Remote c.service with err | ⟨host, node⟩ <;> dsimp only
  · exact ⟨Or.inl rfl, Or.inl rfl⟩
  rcases env.parsePath c.path c.routes with err | path <;> dsimp only
  · exact ⟨Or.inr ⟨host, node, rfl⟩, Or.inl rfl⟩
  split
  · exact ⟨Or.inr ⟨host, node, rfl⟩, Or.inl rfl⟩
  rcases env.makeUrl c.scheme host path c.queries with err | url <;> dsimp only
  · exact ⟨Or.inr ⟨host, node, rfl⟩, Or.inl rfl⟩
  rcases c.payload with _ | payload <;> dsimp only
  · rcases env.newRequest c.method url with _ | err <;>
      exact ⟨Or.inr ⟨host, node, rfl⟩, Or.inl rfl⟩
  · rcases payload () with err | b <;> dsimp only
    · exact ⟨Or.inr ⟨host, node, rfl⟩, Or.inr (by simp)⟩
    · rcases env.newRequest c.method url with _ | err <;>
        exact ⟨Or.inr ⟨host, node, rfl⟩, Or.inr (by simp)⟩

theorem client.build_errInProcess (env : Env) (c : client) (w : Trace) :
    (c.build env w).2.1.errInProcess = c.errInProcess := by
  rcases (client.build_frame env c w).1 with h | ⟨host, node, h⟩ <;> rw [h]

theorem client.build_service (env : Env) (c : client) (w : Trace) :
    (c.build env w).2.1.service = c.service := by
  rcases (client.build_frame env c w).1 with h | ⟨host, node, h⟩ <;> rw [h]

theorem client.deriveCtx_errInProcess (c : client) (hasCancel : Bool) :
    (c.deriveCtx hasCancel).1.errInProcess = c.errInProcess := by
  unfold client.deriveCtx
  cases hasCancel <;> cases c.ctx <;> rfl

theorem client.deriveCtx_service (c : client) (hasCancel : Bool) :
    (c.deriveCtx hasCancel).1.service = c.service := by
  unfold client.deriveCtx
  cases hasCancel <;> cases c.ctx <;> rfl

/-- With an empty sticky slot, `exec` starts by calling `Remote()`. -/
theorem client.exec_calls_remote (env : Env) (c : client) (w : Trace) (hasCancel : Bool)
    (h : c.errInProcess = none) :
    ∃ rest, (c.exec env w hasCancel).w = w ++ Event.remote c.service.Name :: rest := by
  unfold client.exec
  simp only [h]
  have hf := (client.build_frame env (c.deriveCtx hasCancel).1 w).2
  rw [client.deriveCtx_service] at hf
  rcases hb : (c.deriveCtx hasCancel).1.build env w with ⟨res, c2, w2⟩
  rw [hb] at hf
  have hw2 : ∃ rest, w2 = w ++ Event.remote c.service.Name :: rest := by
    rcases hf with hf | hf
    · exact ⟨[], hf⟩
    · exact ⟨[Event.payloadEval], hf⟩
  obtain ⟨rest, hw2⟩ := hw2
  subst hw2
  rcases res with err | request <;> dsimp only
  · exact ⟨rest, rfl⟩
  rcases env.httpDo request with err | resp <;> dsimp only
  · exact ⟨rest ++ [Event.httpSend request], by simp⟩
  split
  · exact ⟨rest ++ [Event.httpSend request], by simp⟩
  rcases resp.Body with err | rsp <;> dsimp only
  · exact ⟨rest ++ [Event.httpSend request, Event.readBody], by simp⟩
  rcases env.unmarshal rsp with err | v <;> dsimp only
  · exact ⟨rest ++ [Event.httpSend request, Event.readBody, Event.unmarshal, Event.closeBody],
      by simp⟩
  · exact ⟨rest ++ [Event.httpSend request, Event.readBody, Event.unmarshal, Event.closeBody],
      by simp⟩

/-! ## The sticky error at execution -/

/-- C2: when the sticky error slot holds `e`, `exec` returns `(0, e)` and `getResp` returns
`(nil, e)` at once: the client and the trace are as before, so `Remote()` is not called, the
payload thunk is not evaluated and no request is sent; and without circuit breaking `Exec`
and `Response` return that same `e`. -/
theorem sticky_error_is_returned_without_exchange (env : Env) (flags : LogFlags) (c : client)
    (w : Trace) (e : GoError) (h : c.errInProcess = some e) :
    (∀ hasCancel, c.exec env w hasCancel =
        { status := 0, err := some e, out := none, cancel := none, c := c, w := w }) ∧
      (∀ hasCancel, c.getResp env w hasCancel =
        { resp := none, err := some e, cancel := none, c := c, w := w }) ∧
      (c.useCircuit = false →
        (c.Exec env flags w).status = 0 ∧ (c.Exec env flags w).err = some e ∧
          (c.Response env flags w).resp = none ∧ (c.Response env flags w).err = some e) := by
  have hexec : ∀ hasCancel, c.exec env w hasCancel =
      { status := 0, err := some e, out := none, cancel := none, c := c, w := w } := by
    intro hasCancel
    simp [client.exec, h]
  have hget : ∀ hasCancel, c.getResp env w hasCancel =
      { resp := none, err := some e, cancel := none, c := c, w := w } := by
    intro hasCancel
    simp [client.getResp, h]
  refine ⟨hexec, hget, ?_⟩
  intro hc
  refine ⟨?_, ?_, ?_, ?_⟩
  · simp [client.Exec, hc, hexec]
  · simp [client.Exec, hc, hexec]
  · simp only [client.Response, client.response, hc, hget, client.processResponseMonitorReport]
    cases env.monitorEnabled <;> simp
  · simp [client.Response, client.response, hc, hget]

theorem sticky_error_is_returned_without_exchange_witness :
    stuckClient.errInProcess = some "boom" ∧
      ((∀ hasCancel, stuckClient.exec (worldWith (.ok ("10.0.0.5:8080", "users-1")) 200 [1]) []
          hasCancel =
        { status := 0, err := some "boom", out := none, cancel := none, c := stuckClient
          w := [] }) ∧
      (∀ hasCancel, stuckClient.getResp (worldWith (.ok ("10.0.0.5:8080", "users-1")) 200 [1]) []
          hasCancel =
        { resp := none, err := some "boom", cancel := none, c := stuckClient, w := [] }) ∧
      (stuckClient.useCircuit = false →
        (stuckClient.Exec (worldWith (.ok ("10.0.0.5:8080", "users-1")) 200 [1]) {} []).status = 0 ∧
          (stuckClient.Exec (worldWith (.ok ("10.0.0.5:8080", "users-1")) 200 [1]) {} []).err =
            some "boom" ∧
          (stuckClient.Response (worldWith (.ok ("10.0.0.5:8080", "users-1")) 200 [1]) {} []).resp =
            none ∧
          (stuckClient.Response (worldWith (.ok ("10.0.0.5:8080", "users-1")) 200 [1]) {} []).err =
            some "boom")) :=
  ⟨rfl, sticky_error_is_returned_without_exchange
    (worldWith (.ok ("10.0.0.5:8080", "users-1")) 200 [1]) {} stuckClient [] "boom" rfl⟩

/-! ## An error of `build` -/

/-- What `exec` and `getResp` return and leave when `build` fails. -/
theorem client.exec_of_build_error (env : Env) (c : client) (w : Trace) (hasCancel : Bool)
    (e : GoError) (h : c.errInProcess = none)
    (hb : ((c.deriveCtx hasCancel).1.build env w).1 = .error e) :
    c.exec env w hasCancel =
        { status := 0, err := some e, out := none, cancel := (c.deriveCtx hasCancel).2
          c := ((c.deriveCtx hasCancel).1.build env w).2.1
          w := ((c.deriveCtx hasCancel).1.build env w).2.2 } ∧
      c.getResp env w hasCancel =
        { resp := none, err := some e, cancel := (c.deriveCtx hasCancel).2
          c := ((c.deriveCtx hasCancel).1.build env w).2.1
          w := ((c.deriveCtx hasCancel).1.build env w).2.2 } := by
  unfold client.exec client.getResp
  simp only [h]
  rcases hb' : (c.deriveCtx hasCancel).1.build env w with ⟨res, c2, w2⟩
  rw [hb'] at hb
  dsimp only at hb
  subst hb
  exact ⟨rfl, rfl⟩

/-- C3 (as amended): when `exec` or `getResp` fails on a client with an empty sticky slot
because `build` returned the error `e`, the error is returned ((0, e), resp. (nil, e)) but not
latched: the sticky slot is still empty afterwards, and a later `exec` on that client runs
`build` again, calling `Remote()` again. -/
theorem build_error_leaves_sticky_slot_empty (env : Env) (c : client) (w : Trace)
    (hasCancel : Bool) (e : GoError) (h : c.errInProcess = none)
    (hb : ((c.deriveCtx hasCancel).1.build env w).1 = .error e) :
    (c.exec env w hasCancel).status = 0 ∧ (c.exec env w hasCancel).err = some e ∧
      (c.exec env w hasCancel).c.errInProcess = none ∧
      (c.getResp env w hasCancel).resp = none ∧ (c.getResp env w hasCancel).err = some e ∧
      (c.getResp env w hasCancel).c.errInProcess = none ∧
      (∀ env' w' hasCancel', ∃ rest,
        ((c.exec env w hasCancel).c.exec env' w' hasCancel').w =
          w' ++ Event.remote c.service.Name :: rest) := by
  obtain ⟨hexec, hget⟩ := client.exec_of_build_error env c w hasCancel e h hb
  have hslot : ((c.deriveCtx hasCancel).1.build env w).2.1.errInProcess = none := by
    rw [client.build_errInProcess, client.deriveCtx_errInProcess, h]
  have hsvc : ((c.deriveCtx hasCancel).1.build env w).2.1.service = c.service := by
    rw [client.build_service, client.deriveCtx_service]
  rw [hexec, hget]
  refine ⟨rfl, rfl, hslot, rfl, rfl, hslot, ?_⟩
  intro env' w' hasCancel'
  have := client.exec_calls_remote env' _ w' hasCancel' hslot
  rw [hsvc] at this
  exact this

theorem build_error_leaves_sticky_slot_empty_witness :
    (usersService.Get "/user/42" 0).errInProcess = none ∧
      (((usersService.Get "/user/42" 0).deriveCtx false).1.build noDiscovery []).1 =
        .error "discovery failed,discovery not config" ∧
      ((usersService.Get "/user/42" 0).exec noDiscovery [] false).status = 0 ∧
      ((usersService.Get "/user/42" 0).exec noDiscovery [] false).err =
        some "discovery failed,discovery not config" ∧
      ((usersService.Get "/user/42" 0).exec noDiscovery [] false).c.errInProcess = none ∧
      ((usersService.Get "/user/42" 0).getResp noDiscovery [] false).resp = none ∧
      ((usersService.Get "/user/42" 0).getResp noDiscovery [] false).err =
        some "discovery failed,discovery not config" ∧
      ((usersService.Get "/user/42" 0).getResp noDiscovery [] false).c.errInProcess = none ∧
      (∀ env' w' hasCancel', ∃ rest,
        (((usersService.Get "/user/42" 0).exec noDiscovery [] false).c.exec env' w' hasCancel').w =
          w' ++ Event.remote (usersService.Get "/user/42" 0).service.Name :: rest) :=
  ⟨rfl, rfl, build_error_leaves_sticky_slot_empty noDiscovery (usersService.Get "/user/42" 0) []
    false "discovery failed,discovery not config" rfl rfl⟩

/-- C3, counterexample: discovery fails for a fresh client, so `build` and `exec` fail with
`e`; afterwards the sticky slot does not hold `e`, the builder call `Tls` still changes the
client, and a second `exec` calls `Remote()` a second time. -/
theorem build_error_is_not_latched :
    ((usersService.Get "/user/42" 0).build noDiscovery []).1 =
        .error "discovery failed,discovery not config" ∧
      ((usersService.Get "/user/42" 0).exec noDiscovery [] false).err =
        some "discovery failed,discovery not config" ∧
      ((usersService.Get "/user/42" 0).exec noDiscovery [] false).c.errInProcess ≠
        some "discovery failed,discovery not config" ∧
      ((usersService.Get "/user/42" 0).exec noDiscovery [] false).c.Tls.scheme ≠
        ((usersService.Get "/user/42" 0).exec noDiscovery [] false).c.scheme ∧
      (((usersService.Get "/user/42" 0).exec noDiscovery [] false).c.exec noDiscovery
          ((usersService.Get "/user/42" 0).exec noDiscovery [] false).w false).w =
        [Event.remote "users", Event.remote "users"] := by
  refine ⟨rfl, rfl, ?_, ?_, rfl⟩
  · decide
  · decide

/-! ## Queries and routes -/

theorem client.Query_errInProcess (c : client) (k v : String) :
    (c.Query k v).errInProcess = c.errInProcess := by
  unfold client.Query
  split
  · rfl
  · cases c.queries <;> rfl

/-- C4: on a client with an empty sticky slot, `Query(k, v)` leaves under `k` the sequence
held before (empty if none, also when the mapping was nil) followed by `v`, and
`QueryArray(k, vs...)` that sequence followed by `vs`; every other key reads as before; so
`Query("a","1")` then `Query("a","2")` appends "1", "2" in that order. -/
theorem query_appends_to_its_key (c : client) (h : c.errInProcess = none) (k v : String)
    (vs : List String) :
    lookup? (c.Query k v).queries k = some (c.querySeq k ++ [v]) ∧
      lookup? (c.QueryArray k vs).queries k = some (c.querySeq k ++ vs) ∧
      (∀ k', k' ≠ k →
        lookup? (c.Query k v).queries k' = lookup? c.queries k' ∧
          lookup? (c.QueryArray k vs).queries k' = lookup? c.queries k') ∧
      lookup? ((c.Query "a" "1").Query "a" "2").queries "a" =
        some (c.querySeq "a" ++ ["1", "2"]) := by
  have hq : ∀ (c : client), c.errInProcess = none → ∀ k v,
      lookup? (c.Query k v).queries k = some (c.querySeq k ++ [v]) := by
    intro c h k v
    unfold client.Query client.querySeq
    simp only [h, Option.isSome_none, Bool.false_eq_true, if_false]
    cases c.queries with
    | none => simp [lookup?, GoMap.get?]
    | some qs => simp [lookup?, GoMap.get?_set_self, GoMap.getD]
  refine ⟨hq c h k v, ?_, ?_, ?_⟩
  · unfold client.QueryArray client.querySeq
    simp only [h, Option.isSome_none, Bool.false_eq_true, if_false]
    cases c.queries with
    | none => simp [lookup?, GoMap.get?]
    | some qs => simp [lookup?, GoMap.get?_set_self, GoMap.getD]
  · intro k' hk
    have hk' : ¬ k = k' := fun e => hk e.symm
    unfold client.Query client.QueryArray
    simp only [h, Option.isSome_none, Bool.false_eq_true, if_false]
    cases c.queries with
    | none => simp [lookup?, GoMap.get?, hk']
    | some qs => simp [lookup?, GoMap.get?_set_ne _ _ _ _ hk]
  · rw [hq (c.Query "a" "1") (by rw [client.Query_errInProcess, h]) "a" "2"]
    have := hq c h "a" "1"
    simp [client.querySeq, this]

theorem query_appends_to_its_key_witness :
    (usersService.Get "/users" 0).errInProcess = none ∧
      (lookup? ((usersService.Get "/users" 0).Query "a" "1").queries "a" =
          some ((usersService.Get "/users" 0).querySeq "a" ++ ["1"]) ∧
        lookup? ((usersService.Get "/users" 0).QueryArray "a" ["2", "3"]).queries "a" =
          some ((usersService.Get "/users" 0).querySeq "a" ++ ["2", "3"]) ∧
        (∀ k', k' ≠ "a" →
          lookup? ((usersService.Get "/users" 0).Query "a" "1").queries k' =
              lookup? (usersService.Get "/users" 0).queries k' ∧
            lookup? ((usersService.Get "/users" 0).QueryArray "a" ["2", "3"]).queries k' =
              lookup? (usersService.Get "/users" 0).queries k') ∧
        lookup? (((usersService.Get "/users" 0).Query "a" "1").Query "a" "2").queries "a" =
          some ((usersService.Get "/users" 0).querySeq "a" ++ ["1", "2"])) :=
  ⟨rfl, query_appends_to_its_key (usersService.Get "/users" 0) rfl "a" "1" ["2", "3"]⟩

/-- C5, the code at the failing input: on a fresh client (queries nil) `Queries` with the
mapping a ↦ ["1"] leaves an empty mapping, "a" has no sequence, and this for every mapping
given; once the mapping exists (after a `Query`) the same call does append under "a". -/
theorem queries_on_nil_mapping_drops_the_values :
    (usersService.Get "/users" 0).errInProcess = none ∧
      (usersService.Get "/users" 0).queries = none ∧
      ((usersService.Get "/users" 0).Queries [("a", ["1"])]).queries = some [] ∧
      ((usersService.Get "/users" 0).Queries [("a", ["1"])]).querySeq "a" = [] ∧
      (∀ m, ((usersService.Get "/users" 0).Queries m).queries = some []) ∧
      (((usersService.Get "/users" 0).Query "b" "0").Queries [("a", ["1"])]).querySeq "a" =
        ["1"] := by
  refine ⟨rfl, rfl, rfl, rfl, fun _ => rfl, ?_⟩
  decide

/-! ## The fallback -/

/-- C7, the code at the failing input: `Fallback(fn)` returns the client as it was, whatever
`fn` is, so the fallback of a fresh client is still nil after it, and `Exec` with circuit
breaking hands nil to the circuit layer as the fallback of the command. -/
theorem fallback_is_not_stored :
    (∀ (c : client) (fn : GoError → Option GoError), c.Fallback fn = c) ∧
      ((guardedService "users").Get "/x" 0).errInProcess = none ∧
      ((((guardedService "users").Get "/x" 0).Fallback (fun _ => none)).fallback.isNone = true) ∧
      (((((guardedService "users").Get "/x" 0).Fallback (fun _ => none)).Exec
          (worldWith (.ok ("10.0.0.5:8080", "users-1")) 200 [1]) {} []).w.get? 1 =
        some (Event.hystrixDo "GET/x" none)) ∧
      (((((guardedService "users").Get "/x" 0).Fallback (fun _ => none)).Response
          (worldWith (.ok ("10.0.0.5:8080", "users-1")) 200 [1]) {} []).w.get? 1 =
        some (Event.hystrixDo "GET/x" none)) := by
  refine ⟨?_, rfl, rfl, rfl, rfl⟩
  intro c fn
  unfold client.Fallback
  split <;> rfl

theorem client.Route_errInProcess (c : client) (k v : String) :
    (c.Route k v).errInProcess = c.errInProcess := by
  unfold client.Route
  split
  · rfl
  · cases c.routes <;> rfl

theorem client.Routes_errInProcess (c : client) (m : GoMap String) :
    (c.Routes m).errInProcess = c.errInProcess := by
  unfold client.Routes
  split <;> rfl

theorem client.lookup?_Route (c : client) (h : c.errInProcess = none) (k v k' : String) :
    lookup? (c.Route k v).routes k' = if k = k' then some v else lookup? c.routes k' := by
  unfold client.Route
  simp only [h, Option.isSome_none, Bool.false_eq_true, if_false]
  by_cases hk : k = k'
  · subst hk
    cases c.routes with
    | none => simp [lookup?, GoMap.get?]
    | some rs => simp [lookup?, GoMap.get?_set_self]
  · have hk' : k' ≠ k := fun e => hk e.symm
    cases c.routes with
    | none => simp [lookup?, GoMap.get?, hk]
    | some rs => simp [lookup?, GoMap.get?_set_ne _ _ _ _ hk', hk]

theorem client.lookup?_Routes (c : client) (h : c.errInProcess = none) (m : GoMap String)
    (hm : GoMap.WF m) (k' : String) :
    lookup? (c.Routes m).routes k' =
      (match GoMap.get? m k' with
       | some v => some v
       | none => lookup? c.routes k') := by
  unfold client.Routes
  simp only [h, Option.isSome_none, Bool.false_eq_true, if_false]
  cases c.routes with
  | none =>
    simp only [lookup?, GoMap.get?_foldl_set m hm, GoMap.get?]
    cases GoMap.get? m k' <;> rfl
  | some rs =>
    simp only [lookup?, GoMap.get?_foldl_set m hm]
    cases GoMap.get? m k' <;> rfl

theorem RouteCall.run_errInProcess (call : RouteCall) (c : client) :
    (call.run c).errInProcess = c.errInProcess := by
  cases call with
  | Route k v => exact client.Route_errInProcess c k v
  | Routes m => exact client.Routes_errInProcess c m

theorem RouteCall.lookup?_run (call : RouteCall) (hw : call.WF) (c : client)
    (h : c.errInProcess = none) (k : String) :
    lookup? (call.run c).routes k =
      (match call.sets k with
       | some v => some v
       | none => lookup? c.routes k) := by
  cases call with
  | Route k1 v =>
    simp only [RouteCall.run, RouteCall.sets, client.lookup?_Route c h]
    split <;> rfl
  | Routes m => exact client.lookup?_Routes c h m hw k

theorem lookup?_runRouteCalls (calls : List RouteCall) (hw : ∀ call ∈ calls, call.WF)
    (c : client) (h : c.errInProcess = none) (k : String) :
    lookup? (runRouteCalls calls c).routes k =
      (match lastSet calls k with
       | some v => some v
       | none => lookup? c.routes k) := by
  induction calls generalizing c with
  | nil => rfl
  | cons call rest ih =>
    have hrest : ∀ call ∈ rest, call.WF := fun x hx => hw x (List.mem_cons_of_mem _ hx)
    have hcall : call.WF := hw call (List.mem_cons_self _ _)
    simp only [runRouteCalls, lastSet]
    rw [ih hrest (call.run c) (by rw [RouteCall.run_errInProcess, h])]
    cases lastSet rest k with
    | some v => rfl
    | none => exact RouteCall.lookup?_run call hcall c h k

/-- C6: on a client with an empty sticky slot, after `Route(k, v)` the key `k` reads `v`
whatever it held and every other key reads as before; after `Routes(m)` every key of `m`
reads the value `m` gives it and every key not in `m` reads as before; and after any
sequence of `Route`/`Routes` calls a key reads the last value set for it (its old value if
no call set it). -/
theorem route_overwrites_its_key (c : client) (h : c.errInProcess = none) (k v : String)
    (m : GoMap String) (hm : GoMap.WF m) (calls : List RouteCall)
    (hcalls : ∀ call ∈ calls, call.WF) :
    lookup? (c.Route k v).routes k = some v ∧
      (∀ k', k' ≠ k → lookup? (c.Route k v).routes k' = lookup? c.routes k') ∧
      (∀ k' v', GoMap.get? m k' = some v' → lookup? (c.Routes m).routes k' = some v') ∧
      (∀ k', GoMap.get? m k' = none → lookup? (c.Routes m).routes k' = lookup? c.routes k') ∧
      (∀ k', lookup? (runRouteCalls calls c).routes k' =
        (match lastSet calls k' with
         | some v' => some v'
         | none => lookup? c.routes k')) := by
  refine ⟨?_, ?_, ?_, ?_, ?_⟩
  · simp [client.lookup?_Route c h]
  · intro k' hk
    have hk' : ¬ k = k' := fun e => hk e.symm
    simp [client.lookup?_Route c h, hk']
  · intro k' v' hv
    simp [client.lookup?_Routes c h m hm, hv]
  · intro k' hv
    simp [client.lookup?_Routes c h m hm, hv]
  · intro k'
    exact lookup?_runRouteCalls calls hcalls c h k'

theorem route_overwrites_its_key_witness :
    (usersService.Get "/user/:id" 0).errInProcess = none ∧
      GoMap.WF [("id", "7"), ("tab", "posts")] ∧
      (∀ call ∈ [RouteCall.Route "id" "42", RouteCall.Routes [("id", "7"), ("tab", "posts")],
          RouteCall.Route "id" "9"], call.WF) ∧
      lookup? (runRouteCalls [RouteCall.Route "id" "42",
          RouteCall.Routes [("id", "7"), ("tab", "posts")], RouteCall.Route "id" "9"]
          (usersService.Get "/user/:id" 0)).routes "id" = some "9" := by
  have hm : GoMap.WF [("id", "7"), ("tab", "posts")] := by
    simp [GoMap.WF]
  have hcalls : ∀ call ∈ [RouteCall.Route "id" "42",
      RouteCall.Routes [("id", "7"), ("tab", "posts")], RouteCall.Route "id" "9"], call.WF := by
    intro call hcall
    simp only [List.mem_cons, List.mem_singleton, List.not_mem_nil, or_false] at hcall
    rcases hcall with rfl | rfl | rfl
    · trivial
    · exact hm
    · trivial
  refine ⟨rfl, hm, hcalls, ?_⟩
  have key := (route_overwrites_its_key (usersService.Get "/user/:id" 0) rfl "id" "42"
    [("id", "7"), ("tab", "posts")] hm _ hcalls).2.2.2.2 "id"
  rw [key]
  decide

/-! ## Status classification -/

theorem badStatus_ne_readFailed (s : String) :
    "reponse with bad status," ++ s ≠ "Read response body failed" := by
  intro h
  have h2 := congrArg (fun t : String => t.data.head?) h
  simp only [String.data_append, List.cons_append, List.head?_cons, Option.some.injEq] at h2
  exact absurd h2 (by decide)

theorem badStatus_ne_decodeFailed (s : String) :
    "reponse with bad status," ++ s ≠ "marshal result body failed" := by
  intro h
  have h2 := congrArg (fun t : String => t.data.head?) h
  simp only [String.data_append, List.cons_append, List.head?_cons, Option.some.injEq] at h2
  exact absurd h2 (by decide)

/-- C8: for a response with status code `code` that `exec` obtained: when `code < 200` or
`code >= 300`, `exec` returns `(code, error)` with the error text made of the code alone, and
the trace ends with the sending of the request (the body is neither read nor decoded); when
`200 <= code <= 299` and the body is read and decoded, `exec` returns `(code, nil)`; a code
in [200,300) never gives the status error, and `exec` reports success only with a code in
[200,300). -/
theorem exec_classifies_status (env : Env) (c : client) (w : Trace) (hasCancel : Bool)
    (request : Request) (c2 : client) (w2 : Trace) (resp : Response)
    (h : c.errInProcess = none)
    (hb : (c.deriveCtx hasCancel).1.build env w = (.ok request, c2, w2))
    (hd : env.httpDo request = .ok resp) :
    (resp.StatusCode < 200 ∨ resp.StatusCode ≥ 300 →
        c.exec env w hasCancel =
          { status := resp.StatusCode
            err := some ("reponse with bad status," ++ toString resp.StatusCode)
            out := none, cancel := (c.deriveCtx hasCancel).2, c := c2
            w := w2 ++ [Event.httpSend request] }) ∧
      (200 ≤ resp.StatusCode ∧ resp.StatusCode ≤ 299 →
        ∀ rsp v, resp.Body = .ok rsp → env.unmarshal rsp = .ok v →
          c.exec env w hasCancel =
            { status := resp.StatusCode, err := none, out := some v
              cancel := (c.deriveCtx hasCancel).2, c := c2
              w := w2 ++ [Event.httpSend request, Event.readBody, Event.unmarshal,
                Event.closeBody] }) ∧
      (200 ≤ resp.StatusCode ∧ resp.StatusCode ≤ 299 →
        (c.exec env w hasCancel).err ≠
          some ("reponse with bad status," ++ toString resp.StatusCode)) ∧
      ((c.exec env w hasCancel).err = none →
        (c.exec env w hasCancel).status = resp.StatusCode ∧
          200 ≤ resp.StatusCode ∧ resp.StatusCode ≤ 299) := by
  unfold client.exec
  simp only [h, hb, hd]
  refine ⟨?_, ?_, ?_, ?_⟩
  · intro hout
    rw [if_pos hout]
  · intro hin rsp v hbody hdec
    have hnot : ¬ (resp.StatusCode < 200 ∨ resp.StatusCode ≥ 300) := by omega
    rw [if_neg hnot]
    simp [hbody, hdec]
  · intro hin
    have hnot : ¬ (resp.StatusCode < 200 ∨ resp.StatusCode ≥ 300) := by omega
    rw [if_neg hnot]
    rcases resp.Body with err | rsp <;> dsimp only
    · intro heq
      exact badStatus_ne_readFailed _ (Option.some.inj heq).symm
    · rcases env.unmarshal rsp with err | v <;> dsimp only
      · intro heq
        exact badStatus_ne_decodeFailed _ (Option.some.inj heq).symm
      · simp
  · by_cases hout : resp.StatusCode < 200 ∨ resp.StatusCode ≥ 300
    · rw [if_pos hout]
      simp
    · rw [if_neg hout]
      rcases resp.Body with err | rsp <;> dsimp only
      · simp
      · rcases env.unmarshal rsp with err | v <;> dsimp only
        · simp
        · intro _
          exact ⟨rfl, by omega, by omega⟩

theorem exec_classifies_status_witness :
    userClient.errInProcess = none ∧
      (userClient.deriveCtx false).1.build (worldWith (.ok ("10.0.0.5:8080", "users-1")) 404 [1]) []
        = (.ok userRequest, { userClient with host := "10.0.0.5:8080", serverid := "users-1" },
            [Event.remote "users"]) ∧
      (worldWith (.ok ("10.0.0.5:8080", "users-1")) 404 [1]).httpDo userRequest =
        .ok { StatusCode := 404, Header := [], Body := .ok [1] } ∧
      (userClient.exec (worldWith (.ok ("10.0.0.5:8080", "users-1")) 404 [1]) [] false).status
        = 404 ∧
      (userClient.exec (worldWith (.ok ("10.0.0.5:8080", "users-1")) 404 [1]) [] false).err
        = some "reponse with bad status,404" ∧
      (userClient.exec (worldWith (.ok ("10.0.0.5:8080", "users-1")) 200 [1]) [] false).status
        = 200 ∧
      (userClient.exec (worldWith (.ok ("10.0.0.5:8080", "users-1")) 200 [1]) [] false).err
        = none := by
  have bad := (exec_classifies_status (worldWith (.ok ("10.0.0.5:8080", "users-1")) 404 [1])
    userClient [] false userRequest
    { userClient with host := "10.0.0.5:8080", serverid := "users-1" } [Event.remote "users"]
    { StatusCode := 404, Header := [], Body := .ok [1] } rfl rfl rfl).1 (Or.inr (by decide))
  have good := (exec_classifies_status (worldWith (.ok ("10.0.0.5:8080", "users-1")) 200 [1])
    userClient [] false userRequest
    { userClient with host := "10.0.0.5:8080", serverid := "users-1" } [Event.remote "users"]
    { StatusCode := 200, Header := [], Body := .ok [1] } rfl rfl rfl).2.1
    ⟨by decide, by decide⟩ [1] "decoded" rfl rfl
  refine ⟨rfl, rfl, rfl, ?_, ?_, ?_, ?_⟩
  · rw [bad]
  · rw [bad]; rfl
  · rw [good]
  · rw [good]

/-! ## An empty host -/

theorem client.deriveCtx_frame (c : client) (hasCancel : Bool) :
    ∃ ctx, (c.deriveCtx hasCancel).1 = { c with ctx := ctx } := by
  unfold client.deriveCtx
  cases hasCancel
  · exact ⟨c.ctx, rfl⟩
  · cases hc : c.ctx with
    | none => exact ⟨c.ctx, rfl⟩
    | some cx => exact ⟨some (Ctx.withCancel cx), rfl⟩

/-- What `build` returns when `Remote()` gives an empty host: the error of the route
substitution if it fails, the empty-remote error otherwise; only `Remote()` was called. -/
theorem client.build_of_empty_host (env : Env) (c : client) (w : Trace) (node : String)
    (hr : env.Remote c.service = .ok ("", node)) :
    c.build env w =
      (.error (match env.parsePath c.path c.routes with
          | .ok _ => "remote is emtpy"
          | .error err => err),
        { c with host := "", serverid := node }, w ++ [Event.remote c.service.Name]) := by
  unfold client.build
  simp only [hr]
  rcases env.parsePath c.path c.routes with err | path <;> simp

/-- C9 (as amended): when `Remote()` returns an empty host without error for a client with an
empty sticky slot, `build`, `exec` and `getResp` fail: with the empty-remote error ("remote
is emtpy") when the route substitution of the path template succeeds, and with the error of
that substitution when it fails (the substitution comes before the host check); either way
the only outside call is `Remote()`: the payload thunk is not evaluated and no request is
sent. -/
theorem empty_host_fails_before_the_exchange (env : Env) (c : client) (w : Trace)
    (hasCancel : Bool) (node : String) (h : c.errInProcess = none)
    (hr : env.Remote c.service = .ok ("", node)) :
    (∀ path, env.parsePath c.path c.routes = .ok path →
        (c.build env w).1 = .error "remote is emtpy" ∧
          (c.exec env w hasCancel).err = some "remote is emtpy" ∧
          (c.getResp env w hasCancel).err = some "remote is emtpy") ∧
      (∀ err, env.parsePath c.path c.routes = .error err →
        (c.build env w).1 = .error err ∧
          (c.exec env w hasCancel).err = some err ∧
          (c.getResp env w hasCancel).err = some err) ∧
      (c.exec env w hasCancel).status = 0 ∧
      (c.exec env w hasCancel).w = w ++ [Event.remote c.service.Name] ∧
      (c.getResp env w hasCancel).resp = none ∧
      (c.getResp env w hasCancel).w = w ++ [Event.remote c.service.Name] := by
  obtain ⟨ctx, hctx⟩ := client.deriveCtx_frame c hasCancel
  have hb := client.build_of_empty_host env (c.deriveCtx hasCancel).1 w node
    (by rw [hctx]; exact hr)
  have hb0 := client.build_of_empty_host env c w node hr
  rw [hctx] at hb
  dsimp only at hb
  have hexec := (client.exec_of_build_error env c w hasCancel _ h
    (by rw [hctx, hb])).1
  have hget := (client.exec_of_build_error env c w hasCancel _ h
    (by rw [hctx, hb])).2
  rw [hctx, hb] at hexec hget
  rw [hexec, hget, hb0]
  refine ⟨?_, ?_, rfl, rfl, rfl, rfl⟩
  · intro path hp
    simp [hp]
  · intro err hp
    simp [hp]

theorem empty_host_fails_before_the_exchange_witness :
    userClient.errInProcess = none ∧
      emptyHost.Remote userClient.service = .ok ("", "users-1") ∧
      emptyHost.parsePath userClient.path userClient.routes = .ok "/user/42" ∧
      (userClient.build emptyHost []).1 = .error "remote is emtpy" ∧
      (userClient.exec emptyHost [] false).err = some "remote is emtpy" ∧
      (userClient.getResp emptyHost [] false).err = some "remote is emtpy" ∧
      (userClient.exec emptyHost [] false).w = [Event.remote "users"] ∧
      (userClient.getResp emptyHost [] false).w = [Event.remote "users"] := by
  have key := empty_host_fails_before_the_exchange emptyHost userClient [] false "users-1"
    rfl rfl
  exact ⟨rfl, rfl, rfl, (key.1 "/user/42" rfl).1, (key.1 "/user/42" rfl).2.1,
    (key.1 "/user/42" rfl).2.2, key.2.2.2.1, key.2.2.2.2.2⟩

/-- C9, counterexample: discovery resolves an empty host for a fresh client whose path
template holds a token without a route; `build` and `exec` fail, but with the error of the
route substitution, not with the empty-remote error. -/
theorem empty_host_with_unresolved_token :
    (usersService.Get "/user/:id" 0).errInProcess = none ∧
      emptyHost.Remote (usersService.Get "/user/:id" 0).service = .ok ("", "users-1") ∧
      ((usersService.Get "/user/:id" 0).build emptyHost []).1 =
        .error "routing error: unresolved token id" ∧
      ((usersService.Get "/user/:id" 0).build emptyHost []).1 ≠ .error "remote is emtpy" ∧
      ((usersService.Get "/user/:id" 0).exec emptyHost [] false).err ≠
        some "remote is emtpy" := by
  refine ⟨rfl, rfl, rfl, ?_, ?_⟩
  · intro hcontra
    have : ((usersService.Get "/user/:id" 0).build emptyHost []).1 =
        .error "routing error: unresolved token id" := rfl
    rw [this] at hcontra
    exact absurd (Except.error.inj hcontra) (by decide)
  · decide

/-! ## The name of the circuit command -/

theorem client.exec_extends_trace (env : Env) (c : client) (w : Trace) (hasCancel : Bool) :
    ∃ rest, (c.exec env w hasCancel).w = w ++ rest := by
  cases h : c.errInProcess with
  | some e => exact ⟨[], by simp [client.exec, h]⟩
  | none =>
    obtain ⟨rest, hrest⟩ := client.exec_calls_remote env c w hasCancel h
    exact ⟨_, hrest⟩

theorem client.processExecMonitorReport_extends_trace (env : Env) (c : client) (code : Int)
    (err : Option GoError) (w : Trace) :
    ∃ rest, c.processExecMonitorReport env code err w = w ++ rest := by
  unfold client.processExecMonitorReport
  split
  · exact ⟨[], by simp⟩
  · cases err with
    | some e => exact ⟨_, rfl⟩
    | none => exact ⟨_, rfl⟩

/-- With circuit breaking, `Exec` configures and invokes the command named by the
`serverid` that the client holds when `Exec` is called, before `build` runs. -/
theorem client.Exec_names_command_before_build (env : Env) (flags : LogFlags) (c : client)
    (w : Trace) (h : c.useCircuit = true) :
    ∃ rest, (c.Exec env flags w).w =
      w ++ Event.configureCommand (c.serverid ++ c.method ++ c.path) c.circuitConfig ::
        Event.hystrixDo (c.serverid ++ c.method ++ c.path) c.fallback :: rest := by
  unfold client.Exec
  simp only [h, Bool.not_true, Bool.false_eq_true, if_false, client.updateHystrix,
    client.processExecMonitorReport, client.reportErrorToMonitor,
    client.reportSuccessToMonitor, client.hytrixCommand]
  obtain ⟨rest, hrest⟩ := client.exec_extends_trace env c
    (w ++ [Event.configureCommand (c.serverid ++ c.method ++ c.path) c.circuitConfig] ++
      [Event.hystrixDo (c.serverid ++ c.method ++ c.path) c.fallback]) true
  rcases env.circuit (c.serverid ++ c.method ++ c.path) with _ | err <;> dsimp only
  · generalize c.exec env
      (w ++ [Event.configureCommand (c.serverid ++ c.method ++ c.path) c.circuitConfig] ++
        [Event.hystrixDo (c.serverid ++ c.method ++ c.path) c.fallback]) true = r at hrest ⊢
    obtain ⟨st, er, out, cancel, c2, w2⟩ := r
    dsimp only at hrest
    subst hrest
    rcases er with _ | e <;> dsimp only
    · cases env.monitorEnabled <;> cases flags.doLogger <;>
        simp only [List.append_assoc, List.cons_append, List.nil_append, if_true, if_false,
          Bool.false_eq_true, reduceCtorEq] <;> exact ⟨_, rfl⟩
    · rcases env.tryFallback c.fallback e with _ | e2 <;> rcases cancel with _ | cx <;>
        cases env.monitorEnabled <;> cases flags.doLogger <;>
        simp only [List.append_assoc, List.cons_append, List.nil_append, if_true, if_false,
          Bool.false_eq_true, reduceCtorEq] <;> exact ⟨_, rfl⟩
  · rcases env.tryFallback c.fallback err with _ | e2 <;>
      cases env.monitorEnabled <;> cases flags.doLogger <;>
      simp only [List.append_assoc, List.cons_append, List.nil_append, if_true, if_false,
        Bool.false_eq_true, reduceCtorEq] <;> exact ⟨_, rfl⟩

/-- C10, the code at the failing input: two fresh clients with the same method and path, on
services that discovery resolves to the identifiers "a-node" and "b-node"; with circuit
breaking, `Exec` and `Response` configure and invoke the command "GET/x" for both: the name
has the identifier the client held before the call (none yet), not the one `Remote()`
resolves for the call, which the client holds only afterwards. -/
theorem command_name_lacks_resolved_identifier :
    ownNodes.Remote ((guardedService "a").Get "/x" 0).service =
        .ok ("10.0.0.5:8080", "a-node") ∧
      ownNodes.Remote ((guardedService "b").Get "/x" 0).service =
        .ok ("10.0.0.5:8080", "b-node") ∧
      ((((guardedService "a").Get "/x" 0).Exec ownNodes {} []).w.take 2 =
        [Event.configureCommand "GET/x"
            { Timeout := 60000, MaxConcurrentRequests := 2000, ErrorPercentThreshold := 20 },
          Event.hystrixDo "GET/x" none]) ∧
      ((((guardedService "b").Get "/x" 0).Exec ownNodes {} []).w.take 2 =
        [Event.configureCommand "GET/x"
            { Timeout := 60000, MaxConcurrentRequests := 2000, ErrorPercentThreshold := 20 },
          Event.hystrixDo "GET/x" none]) ∧
      ((((guardedService "a").Get "/x" 0).Response ownNodes {} []).w.take 2 =
        (((guardedService "b").Get "/x" 0).Response ownNodes {} []).w.take 2) ∧
      (((guardedService "a").Get "/x" 0).Exec ownNodes {} []).c.hytrixCommand =
        "a-nodeGET/x" ∧
      (((guardedService "b").Get "/x" 0).Exec ownNodes {} []).c.hytrixCommand =
        "b-nodeGET/x" ∧
      (∀ (env : Env) (flags : LogFlags) (c : client) (w : Trace), c.useCircuit = true →
        ∃ rest, (c.Exec env flags w).w =
          w ++ Event.configureCommand (c.serverid ++ c.method ++ c.path) c.circuitConfig ::
            Event.hystrixDo (c.serverid ++ c.method ++ c.path) c.fallback :: rest) :=
  ⟨rfl, rfl, rfl, rfl, rfl, rfl, rfl, client.Exec_names_command_before_build⟩

/-! ## The setters of the circuit config -/

/-- C13: on a client with an empty sticky slot, `Timeout(d)` panics exactly when `d <= 0`,
`MaxConcurrent(n)` exactly when `n <= 0` and `ErrorThreshold(p)` exactly when `p <= 0`; when
it does not panic, each returns the client with its own field of the circuit config set
(the timeout in whole milliseconds) and everything else as before. -/
theorem circuit_setters_panic_iff_nonpositive (c : client) (h : c.errInProcess = none)
    (d n p : Int) :
    ((∃ msg, c.Timeout d = .error msg) ↔ d ≤ 0) ∧
      ((∃ msg, c.MaxConcurrent n = .error msg) ↔ n ≤ 0) ∧
      ((∃ msg, c.ErrorThreshold p = .error msg) ↔ p ≤ 0) ∧
      (0 < d → c.Timeout d = .ok { c with
        circuitConfig := { c.circuitConfig with Timeout := Int.tdiv d Millisecond } }) ∧
      (0 < n → c.MaxConcurrent n = .ok { c with
        circuitConfig := { c.circuitConfig with MaxConcurrentRequests := n } }) ∧
      (0 < p → c.ErrorThreshold p = .ok { c with
        circuitConfig := { c.circuitConfig with ErrorPercentThreshold := p } }) := by
  unfold client.Timeout client.MaxConcurrent client.ErrorThreshold
  simp only [h, Option.isSome_none, Bool.false_eq_true, if_false]
  refine ⟨?_, ?_, ?_, ?_, ?_, ?_⟩
  · by_cases hd : d ≤ 0 <;> simp [hd]
  · by_cases hn : n ≤ 0 <;> simp [hn]
  · by_cases hp : p ≤ 0 <;> simp [hp]
  · intro hd
    rw [if_neg (by omega)]
  · intro hn
    rw [if_neg (by omega)]
  · intro hp
    rw [if_neg (by omega)]

theorem circuit_setters_panic_iff_nonpositive_witness :
    userClient.errInProcess = none ∧
      ((∃ msg, userClient.Timeout 0 = .error msg) ↔ (0 : Int) ≤ 0) ∧
      ((∃ msg, userClient.MaxConcurrent 5 = .error msg) ↔ (5 : Int) ≤ 0) ∧
      ((∃ msg, userClient.ErrorThreshold (-1) = .error msg) ↔ (-1 : Int) ≤ 0) ∧
      userClient.MaxConcurrent 5 = .ok { userClient with
        circuitConfig := { userClient.circuitConfig with MaxConcurrentRequests := 5 } } :=
  ⟨rfl, (circuit_setters_panic_iff_nonpositive userClient rfl 0 5 (-1)).1,
    (circuit_setters_panic_iff_nonpositive userClient rfl 0 5 (-1)).2.1,
    (circuit_setters_panic_iff_nonpositive userClient rfl 0 5 (-1)).2.2.1,
    (circuit_setters_panic_iff_nonpositive userClient rfl 0 5 (-1)).2.2.2.2.1 (by decide)⟩

/-- C20: on a client with an empty sticky slot, `Timeout(d)` with `d > 0` nanoseconds does not
panic and stores `floor(d / 1000000)` as the timeout of the circuit config: the stored value
`t` has `1000000 * t <= d < 1000000 * (t + 1)`; it is 0, the value of a timeout never set,
for every `0 < d < 1 ms`, and it is positive exactly when `d >= 1 ms`. -/
theorem timeout_stores_whole_milliseconds (c : client) (h : c.errInProcess = none) (d : Int)
    (hd : 0 < d) :
    ∃ c', c.Timeout d = .ok c' ∧
      c'.circuitConfig.Timeout = d / 1000000 ∧
      1000000 * c'.circuitConfig.Timeout ≤ d ∧
      d < 1000000 * (c'.circuitConfig.Timeout + 1) ∧
      (d < 1000000 → c'.circuitConfig.Timeout = 0) ∧
      (0 < c'.circuitConfig.Timeout ↔ 1000000 ≤ d) := by
  have hdiv : Int.tdiv d Millisecond = d / 1000000 := by
    unfold Millisecond
    exact Int.tdiv_eq_ediv (by omega) (by omega)
  refine ⟨{ c with circuitConfig := { c.circuitConfig with Timeout := Int.tdiv d Millisecond } },
    ?_, ?_, ?_, ?_, ?_, ?_⟩
  · unfold client.Timeout
    simp only [h, Option.isSome_none, Bool.false_eq_true, if_false]
    rw [if_neg (by omega)]
  · exact hdiv
  · show 1000000 * Int.tdiv d Millisecond ≤ d
    rw [hdiv]; omega
  · show d < 1000000 * (Int.tdiv d Millisecond + 1)
    rw [hdiv]; omega
  · intro hlt
    show Int.tdiv d Millisecond = 0
    rw [hdiv]; omega
  · show 0 < Int.tdiv d Millisecond ↔ 1000000 ≤ d
    rw [hdiv]; omega

theorem timeout_stores_whole_milliseconds_witness :
    userClient.errInProcess = none ∧ (0 : Int) < 999999 ∧
      ∃ c', userClient.Timeout 999999 = .ok c' ∧
        c'.circuitConfig.Timeout = 999999 / 1000000 ∧
        1000000 * c'.circuitConfig.Timeout ≤ 999999 ∧
        999999 < 1000000 * (c'.circuitConfig.Timeout + 1) ∧
        ((999999 : Int) < 1000000 → c'.circuitConfig.Timeout = 0) ∧
        (0 < c'.circuitConfig.Timeout ↔ (1000000 : Int) ≤ 999999) :=
  ⟨rfl, by decide, timeout_stores_whole_milliseconds userClient rfl 999999 (by decide)⟩

/-! ## Failures after the response -/

/-- C19: for a response with a status code in [200,300) that `exec` obtained: when the body
is read but cannot be decoded, `exec` returns the status 0, which is not the code received,
with the decode error; when reading the body fails, it returns the code received with the
read error. So an error with status 0 may come with a response that was received. -/
theorem exec_decode_failure_has_status_zero (env : Env) (c : client) (w : Trace)
    (hasCancel : Bool) (request : Request) (c2 : client) (w2 : Trace) (resp : Response)
    (h : c.errInProcess = none)
    (hb : (c.deriveCtx hasCancel).1.build env w = (.ok request, c2, w2))
    (hd : env.httpDo request = .ok resp)
    (hin : 200 ≤ resp.StatusCode ∧ resp.StatusCode ≤ 299) :
    (∀ rsp err, resp.Body = .ok rsp → env.unmarshal rsp = .error err →
        c.exec env w hasCancel =
            { status := 0, err := some "marshal result body failed", out := none
              cancel := (c.deriveCtx hasCancel).2, c := c2
              w := w2 ++ [Event.httpSend request, Event.readBody, Event.unmarshal,
                Event.closeBody] } ∧
          (c.exec env w hasCancel).status ≠ resp.StatusCode) ∧
      (∀ err, resp.Body = .error err →
        c.exec env w hasCancel =
          { status := resp.StatusCode, err := some "Read response body failed", out := none
            cancel := (c.deriveCtx hasCancel).2, c := c2
            w := w2 ++ [Event.httpSend request, Event.readBody] }) := by
  have hnot : ¬ (resp.StatusCode < 200 ∨ resp.StatusCode ≥ 300) := by omega
  unfold client.exec
  simp only [h, hb, hd, if_neg hnot]
  refine ⟨?_, ?_⟩
  · intro rsp err hbody hdec
    simp only [hbody, hdec, List.append_assoc, List.cons_append, List.nil_append,
      true_and]
    omega
  · intro err hbody
    simp only [hbody, List.append_assoc, List.cons_append, List.nil_append]

theorem exec_decode_failure_has_status_zero_witness :
    userClient.errInProcess = none ∧
      (userClient.exec (worldWith (.ok ("10.0.0.5:8080", "users-1")) 200 []) [] false).status
        = 0 ∧
      (userClient.exec (worldWith (.ok ("10.0.0.5:8080", "users-1")) 200 []) [] false).err
        = some "marshal result body failed" ∧
      (userClient.exec brokenBody [] false).status = 200 ∧
      (userClient.exec brokenBody [] false).err = some "Read response body failed" := by
  have decode := ((exec_decode_failure_has_status_zero
    (worldWith (.ok ("10.0.0.5:8080", "users-1")) 200 []) userClient [] false userRequest
    { userClient with host := "10.0.0.5:8080", serverid := "users-1" } [Event.remote "users"]
    { StatusCode := 200, Header := [], Body := .ok [] } rfl rfl rfl
    ⟨by decide, by decide⟩).1 [] "unexpected end of JSON input" rfl rfl).1
  have read := (exec_decode_failure_has_status_zero brokenBody userClient [] false userRequest
    { userClient with host := "10.0.0.5:8080", serverid := "users-1" } [Event.remote "users"]
    { StatusCode := 200, Header := [], Body := .error "unexpected EOF" } rfl rfl rfl
    ⟨by decide, by decide⟩).2 "unexpected EOF" rfl
  refine ⟨rfl, ?_, ?_, ?_, ?_⟩
  · rw [decode]
  · rw [decode]
  · rw [read]
  · rw [read]

/-! ## A failure of discovery -/

/-- C17: when `Remote()` returns the error `e`, `build` returns the error whose text is
"discovery failed," followed by `e`, no request, the client as it was (host and endpoint
identifier included) and a trace with the call of `Remote()` alone (no evaluation of the
payload thunk); no later step runs: the result is the same whatever the route substitution,
the URL assembly and the other collaborators would do. -/
theorem build_stops_at_discovery_failure (env : Env) (c : client) (w : Trace) (e : GoError)
    (hr : env.Remote c.service = .error e) :
    c.build env w =
        (.error ("discovery failed," ++ e), c, w ++ [Event.remote c.service.Name]) ∧
      (∀ env' : Env, env'.Remote c.service = .error e → c.build env' w = c.build env w) := by
  have key : ∀ env' : Env, env'.Remote c.service = .error e →
      c.build env' w =
        (.error ("discovery failed," ++ e), c, w ++ [Event.remote c.service.Name]) := by
    intro env' hr'
    unfold client.build
    simp only [hr']
  refine ⟨key env hr, ?_⟩
  intro env' hr'
  rw [key env' hr', key env hr]

theorem build_stops_at_discovery_failure_witness :
    noDiscovery.Remote postClient.service = .error "discovery not config" ∧
      postClient.build noDiscovery [] =
        (.error "discovery failed,discovery not config", postClient, [Event.remote "users"]) :=
  ⟨rfl, (build_stops_at_discovery_failure noDiscovery postClient [] "discovery not config"
    rfl).1⟩

/-! ## Init -/

/-- What `Init` does with circuit breaking on: the panic of the first check that fails, or
the nil error and the defaults stored. -/
theorem Init_of_circuit (x : ParseRspFunc) (o : InitOption) (p : Package)
    (hc : o.UseCircuit = true) :
    (o.DefaultTimeout < 0 → Init x o p = .error "bad timeout") ∧
      (0 ≤ o.DefaultTimeout → o.DefaultMaxConcurrentRequests < 0 →
        Init x o p = .error "bad max concurrent") ∧
      (0 ≤ o.DefaultTimeout → 0 ≤ o.DefaultMaxConcurrentRequests →
        (o.DefaultErrorPercentThreshold < 0 ∨ o.DefaultErrorPercentThreshold > 100) →
        Init x o p = .error "bad error threshold") ∧
      (0 ≤ o.DefaultTimeout → 0 ≤ o.DefaultMaxConcurrentRequests →
        0 ≤ o.DefaultErrorPercentThreshold → o.DefaultErrorPercentThreshold ≤ 100 →
        returnedError (Init x o p) = some none ∧
          configAfter (Init x o p) = some
            { Timeout := Int.tdiv (if o.DefaultTimeout = 0 then Minute else o.DefaultTimeout)
                Millisecond
              MaxConcurrentRequests :=
                if o.DefaultMaxConcurrentRequests = 0 then 2000
                else o.DefaultMaxConcurrentRequests
              ErrorPercentThreshold :=
                if o.DefaultErrorPercentThreshold = 0 then 20
                else o.DefaultErrorPercentThreshold }) := by
  obtain ⟨dis, lb, tr, dl, dlp, uc, T, M, E, pr⟩ := o
  dsimp only at hc ⊢
  subst hc
  refine ⟨?_, ?_, ?_, ?_⟩
  · intro ht
    have h0 : ¬ T = 0 := by omega
    simp [Init, h0, ht]
  · intro ht hm
    have hm0 : ¬ M = 0 := by omega
    by_cases h0 : T = 0
    · simp [Init, h0, hm0, hm]
    · have ht' : ¬ T < 0 := by omega
      simp [Init, h0, ht', hm0, hm]
  · intro ht hm he
    have he0 : ¬ E = 0 := by omega
    have he' : E < 0 ∨ 100 < E := he
    by_cases h0 : T = 0 <;> by_cases hm0 : M = 0
    · simp [Init, h0, hm0, he0, he']
    · have hm' : ¬ M < 0 := by omega
      simp [Init, h0, hm0, hm', he0, he']
    · have ht' : ¬ T < 0 := by omega
      simp [Init, h0, ht', hm0, he0, he']
    · have ht' : ¬ T < 0 := by omega
      have hm' : ¬ M < 0 := by omega
      simp [Init, h0, ht', hm0, hm', he0, he']
  · intro ht hm he he100
    have ht' : ¬ T < 0 := by omega
    have hm' : ¬ M < 0 := by omega
    have he' : ¬ (E < 0 ∨ 100 < E) := by omega
    by_cases h0 : T = 0 <;> by_cases hm0 : M = 0 <;> by_cases he0 : E = 0 <;>
      simp [Init, engine.Init, returnedError, configAfter, h0, ht', hm0, hm', he0, he']

/-- What `Init` does with circuit breaking off: no check, the defaults stored as given. -/
theorem Init_of_no_circuit (x : ParseRspFunc) (o : InitOption) (p : Package)
    (hc : o.UseCircuit = false) :
    returnedError (Init x o p) = some none ∧
      configAfter (Init x o p) = some
        { Timeout := Int.tdiv o.DefaultTimeout Millisecond
          MaxConcurrentRequests := o.DefaultMaxConcurrentRequests
          ErrorPercentThreshold := o.DefaultErrorPercentThreshold } := by
  simp [Init, engine.Init, returnedError, configAfter, hc]

/-- C11 (as amended): `Init` validates its numeric defaults only when the option enables
circuit breaking: with `UseCircuit` set, it panics exactly when `DefaultTimeout < 0`, or
`DefaultMaxConcurrentRequests < 0`, or `DefaultErrorPercentThreshold` is below 0 or above
100, and returns a nil error otherwise; with `UseCircuit` unset it checks nothing and
returns a nil error for every option. -/
theorem init_validates_defaults_under_circuit (x : ParseRspFunc) (o : InitOption)
    (p : Package) :
    (o.UseCircuit = true →
        ((∃ msg, Init x o p = .error msg) ↔
          (o.DefaultTimeout < 0 ∨ o.DefaultMaxConcurrentRequests < 0 ∨
            o.DefaultErrorPercentThreshold < 0 ∨ o.DefaultErrorPercentThreshold > 100)) ∧
        (0 ≤ o.DefaultTimeout ∧ 0 ≤ o.DefaultMaxConcurrentRequests ∧
            0 ≤ o.DefaultErrorPercentThreshold ∧ o.DefaultErrorPercentThreshold ≤ 100 →
          returnedError (Init x o p) = some none)) ∧
      (o.UseCircuit = false → returnedError (Init x o p) = some none) := by
  refine ⟨?_, fun hc => (Init_of_no_circuit x o p hc).1⟩
  intro hc
  obtain ⟨h1, h2, h3, h4⟩ := Init_of_circuit x o p hc
  refine ⟨⟨?_, ?_⟩, ?_⟩
  · rintro ⟨msg, hmsg⟩
    by_contra hvalid
    have hok := (h4 (by omega) (by omega) (by omega) (by omega)).1
    rw [hmsg] at hok
    simp [returnedError] at hok
  · intro hbad
    by_cases ht : o.DefaultTimeout < 0
    · exact ⟨_, h1 ht⟩
    · by_cases hm : o.DefaultMaxConcurrentRequests < 0
      · exact ⟨_, h2 (by omega) hm⟩
      · exact ⟨_, h3 (by omega) (by omega) (by omega)⟩
  · rintro ⟨ht, hm, he, he100⟩
    exact (h4 ht hm he he100).1

theorem init_validates_defaults_under_circuit_witness :
    circuitOption.UseCircuit = true ∧
      (0 ≤ circuitOption.DefaultTimeout ∧ 0 ≤ circuitOption.DefaultMaxConcurrentRequests ∧
        0 ≤ circuitOption.DefaultErrorPercentThreshold ∧
        circuitOption.DefaultErrorPercentThreshold ≤ 100) ∧
      returnedError (Init standardParser circuitOption (Package.initial standardParser)) =
        some none ∧
      ((∃ msg, Init standardParser { wildOption with UseCircuit := true }
          (Package.initial standardParser) = .error msg) ↔
        ((-1 : Int) < 0 ∨ (-1 : Int) < 0 ∨ (101 : Int) < 0 ∨ (101 : Int) > 100)) :=
  ⟨rfl, by decide,
    ((init_validates_defaults_under_circuit standardParser circuitOption
      (Package.initial standardParser)).1 rfl).2 (by decide),
    ((init_validates_defaults_under_circuit standardParser { wildOption with UseCircuit := true }
      (Package.initial standardParser)).1 rfl).1⟩

/-- C11, counterexample: an option with circuit breaking off, a negative timeout, a negative
concurrency and a threshold of 101; `Init` does not panic and returns a nil error. -/
theorem init_without_circuit_accepts_bad_defaults :
    wildOption.DefaultTimeout < 0 ∧ wildOption.DefaultMaxConcurrentRequests < 0 ∧
      wildOption.DefaultErrorPercentThreshold > 100 ∧
      returnedError (Init standardParser wildOption (Package.initial standardParser)) =
        some none ∧
      ¬ ∃ msg, Init standardParser wildOption (Package.initial standardParser) =
        .error msg := by
  refine ⟨by decide, by decide, by decide, rfl, ?_⟩
  rintro ⟨msg, hmsg⟩
  have hok : returnedError (Init standardParser wildOption (Package.initial standardParser)) =
      some none := rfl
  rw [hmsg] at hok
  simp [returnedError] at hok

/-- C12 (as amended): the fixed values stand in for unset numeric defaults only when the
option enables circuit breaking: with `UseCircuit` set and the defaults valid, after `Init`
the engine's default circuit config has the timeout 60000 ms if `DefaultTimeout` was 0 and
`DefaultTimeout` in whole milliseconds otherwise, 2000 concurrent requests if
`DefaultMaxConcurrentRequests` was 0 and the given number otherwise, the threshold 20 if
`DefaultErrorPercentThreshold` was 0 and the given one otherwise; with `UseCircuit` unset the
three values are stored as given, zero for an unset one. -/
theorem init_falls_back_under_circuit (x : ParseRspFunc) (o : InitOption) (p : Package) :
    (o.UseCircuit = true → 0 ≤ o.DefaultTimeout → 0 ≤ o.DefaultMaxConcurrentRequests →
        0 ≤ o.DefaultErrorPercentThreshold → o.DefaultErrorPercentThreshold ≤ 100 →
        configAfter (Init x o p) = some
          { Timeout := if o.DefaultTimeout = 0 then 60000 else o.DefaultTimeout / 1000000
            MaxConcurrentRequests :=
              if o.DefaultMaxConcurrentRequests = 0 then 2000
              else o.DefaultMaxConcurrentRequests
            ErrorPercentThreshold :=
              if o.DefaultErrorPercentThreshold = 0 then 20
              else o.DefaultErrorPercentThreshold }) ∧
      (o.UseCircuit = false →
        configAfter (Init x o p) = some
          { Timeout := Int.tdiv o.DefaultTimeout 1000000
            MaxConcurrentRequests := o.DefaultMaxConcurrentRequests
            ErrorPercentThreshold := o.DefaultErrorPercentThreshold }) := by
  refine ⟨?_, fun hc => (Init_of_no_circuit x o p hc).2⟩
  intro hc ht hm he he100
  rw [((Init_of_circuit x o p hc).2.2.2 ht hm he he100).2]
  have hT : Int.tdiv (if o.DefaultTimeout = 0 then Minute else o.DefaultTimeout) Millisecond =
      if o.DefaultTimeout = 0 then 60000 else o.DefaultTimeout / 1000000 := by
    split
    · decide
    · exact Int.tdiv_eq_ediv ht (by decide)
  rw [hT]

theorem init_falls_back_under_circuit_witness :
    circuitOption.UseCircuit = true ∧
      configAfter (Init standardParser circuitOption (Package.initial standardParser)) =
        some { Timeout := 2500, MaxConcurrentRequests := 2000, ErrorPercentThreshold := 20 } := by
  refine ⟨rfl, ?_⟩
  rw [(init_falls_back_under_circuit standardParser circuitOption
    (Package.initial standardParser)).1 rfl (by decide) (by decide) (by decide) (by decide)]
  decide

/-- C12, counterexample: an option with circuit breaking off and the three numeric defaults
unset; after `Init` the engine's default circuit config holds 0, 0 and 0, not 60000, 2000
and 20. -/
theorem init_without_circuit_keeps_zero_defaults :
    plainOption.DefaultTimeout = 0 ∧ plainOption.DefaultMaxConcurrentRequests = 0 ∧
      plainOption.DefaultErrorPercentThreshold = 0 ∧
      configAfter (Init standardParser plainOption (Package.initial standardParser)) =
        some { Timeout := 0, MaxConcurrentRequests := 0, ErrorPercentThreshold := 0 } ∧
      configAfter (Init standardParser plainOption (Package.initial standardParser)) ≠
        some { Timeout := 60000, MaxConcurrentRequests := 2000, ErrorPercentThreshold := 20 } := by
  refine ⟨rfl, rfl, rfl, rfl, ?_⟩
  decide

/-- C16, the code at the failing input: the option names the parser `customParser`; after
`Init` the default parser is still the parser `extractHttpResponse` (here `standardParser`),
which answers "standard" where the parser named answers "custom"; and so for every option
with a parser that `Init` accepts: the default parser afterwards is `extractHttpResponse`,
never the one the option names, and it is left as it was when the option names none. -/
theorem init_ignores_the_parser_named :
    parserOption.ParseRsp.isSome = true ∧
      (parserAfter (Init standardParser parserOption (Package.initial standardParser))).map
          (fun parse => parse { StatusCode := 200, Header := [], Body := .ok [] }) =
        some (.ok "standard") ∧
      customParser { StatusCode := 200, Header := [], Body := .ok [] } = .ok "custom" ∧
      (∀ (x : ParseRspFunc) (o : InitOption) (p : Package) out, Init x o p = .ok out →
        out.2.2.defaultParseRsp = if o.ParseRsp.isSome then x else p.defaultParseRsp) := by
  refine ⟨rfl, rfl, rfl, ?_⟩
  intro x o p out hout
  unfold Init at hout
  dsimp only at hout
  split at hout
  · exact absurd hout (by simp)
  · have := Except.ok.inj hout
    subst this
    cases hP : o.ParseRsp <;> simp [engine.Init]

/-! ## The engine -/

theorem GoMap.keys_set {V : Type} (m : GoMap V) (k : String) (v : V) :
    (GoMap.set m k v).map Prod.fst =
      if k ∈ m.map Prod.fst then m.map Prod.fst else m.map Prod.fst ++ [k] := by
  induction m with
  | nil => simp [GoMap.set]
  | cons e t ih =>
    obtain ⟨k1, v1⟩ := e
    by_cases hk : k1 = k
    · subst hk
      simp [GoMap.set]
    · have hk' : ¬ k = k1 := fun e => hk e.symm
      simp only [GoMap.set, hk, if_false, List.map_cons, ih, List.mem_cons, hk', false_or]
      split <;> simp

theorem GoMap.not_mem_of_get?_eq_none {V : Type} (m : GoMap V) (k : String)
    (h : GoMap.get? m k = none) : k ∉ m.map Prod.fst := by
  induction m with
  | nil => simp
  | cons e t ih =>
    obtain ⟨k1, v1⟩ := e
    by_cases hk : k1 = k
    · simp [GoMap.get?, hk] at h
    · have hk' : ¬ k = k1 := fun e => hk e.symm
      simp only [GoMap.get?, hk, if_false] at h
      simp [hk', ih h]

theorem GoMap.WF_set {V : Type} (m : GoMap V) (hm : GoMap.WF m) (k : String) (v : V) :
    GoMap.WF (GoMap.set m k v) := by
  unfold GoMap.WF at hm ⊢
  rw [GoMap.keys_set]
  split
  · exact hm
  · rename_i hk
    exact List.Nodup.append hm (List.nodup_singleton k) (by simpa using hk)

/-- C14: for every engine (whatever discovery function it is configured with) and every
address `a`, `Addr(a)` returns a service named `a` whose discovery function answers every
name with the address list [a], the identifier list [a] and no error, and leaves the engine,
its service mapping included, as it was: the service is not registered. -/
theorem addr_pins_the_address (e : engine) (a : String) :
    (e.Addr a).1.name = a ∧
      (∃ f : DiscoveryFunc, (e.Addr a).1.discovery = some f ∧
        ∀ name, f name = ([a], [a], none)) ∧
      (e.Addr a).2 = e ∧
      (∀ x, GoMap.get? (e.Addr a).2.serviceMap x = GoMap.get? e.serviceMap x) :=
  ⟨rfl, ⟨fun _ => ([a], [a], none), rfl, fun _ => rfl⟩, rfl, fun _ => rfl⟩

theorem engine.Service_of_registered (e : engine) (x : String) (s : service)
    (h : GoMap.get? e.serviceMap x = some s) : e.Service x = (s, e) := by
  simp [engine.Service, h]

theorem engine.Service_registers (e : engine) (x : String) :
    GoMap.get? (e.Service x).2.serviceMap x = some (e.Service x).1 := by
  unfold engine.Service
  cases h : GoMap.get? e.serviceMap x with
  | some s => simpa using h
  | none => simp [GoMap.get?_set_self]

theorem engine.Services_after_first (e : engine) (x : String) (s : service)
    (h : GoMap.get? e.serviceMap x = some s) (n : Nat) :
    e.Services x n = (List.replicate n s, e) := by
  induction n with
  | zero => rfl
  | succ n ih => simp [engine.Services, engine.Service_of_registered e x s h, ih, List.replicate]

/-- C15: in a sequential run, for every engine and name `x`: when `x` is not registered,
`Service(x)` returns a service named `x` bound to the engine's discovery function, flags and
default circuit config, and afterwards the mapping holds it under `x` with every other key
as before; when `x` is registered, `Service(x)` returns the registered service and leaves
the engine as it was; either way the registry then has exactly one entry for `x`, and any
number of further calls return that same service and change nothing. -/
theorem service_is_a_lazy_cache (e : engine) (x : String) (hw : GoMap.WF e.serviceMap) :
    (GoMap.get? e.serviceMap x = none →
        (e.Service x).1 =
            { discovery := e.dv, name := x, useTracing := e.useTracing
              useCircuit := e.useCircuit, circuitConfig := e.circuitConfig } ∧
          (e.Service x).2 =
            { e with serviceMap := GoMap.set e.serviceMap x (e.Service x).1 } ∧
          GoMap.get? (e.Service x).2.serviceMap x = some (e.Service x).1 ∧
          (∀ y, y ≠ x →
            GoMap.get? (e.Service x).2.serviceMap y = GoMap.get? e.serviceMap y)) ∧
      (∀ s, GoMap.get? e.serviceMap x = some s → e.Service x = (s, e)) ∧
      (e.Service x).2.entriesFor x = 1 ∧
      (∀ n, (e.Services x (n + 1)).1 = List.replicate (n + 1) (e.Service x).1 ∧
        (e.Services x (n + 1)).2 = (e.Service x).2 ∧
        (e.Services x (n + 1)).2.entriesFor x = 1) := by
  have hwf : GoMap.WF (e.Service x).2.serviceMap := by
    unfold engine.Service
    cases h : GoMap.get? e.serviceMap x with
    | some s => exact hw
    | none => exact GoMap.WF_set _ hw _ _
  have hone : (e.Service x).2.entriesFor x = 1 := by
    unfold engine.entriesFor
    apply List.count_eq_one_of_mem hwf
    by_contra hmem
    have := GoMap.get?_eq_none_of_not_mem _ _ hmem
    rw [engine.Service_registers] at this
    exact absurd this (by simp)
  refine ⟨?_, engine.Service_of_registered e x, hone, ?_⟩
  · intro h
    refine ⟨?_, ?_, engine.Service_registers e x, ?_⟩
    · simp [engine.Service, h, engine.newService]
    · simp [engine.Service, h]
    · intro y hy
      simp [engine.Service, h, GoMap.get?_set_ne _ _ _ _ hy]
  · intro n
    have hrest := engine.Services_after_first (e.Service x).2 x (e.Service x).1
      (engine.Service_registers e x) n
    have hall : e.Services x (n + 1) =
        (List.replicate (n + 1) (e.Service x).1, (e.Service x).2) := by
      simp [engine.Services, hrest, List.replicate]
    rw [hall]
    exact ⟨rfl, rfl, hone⟩

theorem service_is_a_lazy_cache_witness :
    GoMap.WF newEngine.serviceMap ∧
      GoMap.get? newEngine.serviceMap "users" = none ∧
      (newEngine.Service "users").1.name = "users" ∧
      (newEngine.Service "users").2.entriesFor "users" = 1 ∧
      (newEngine.Services "users" 3).2.entriesFor "users" = 1 := by
  have hw : GoMap.WF newEngine.serviceMap := by simp [GoMap.WF, newEngine]
  have key := service_is_a_lazy_cache newEngine "users" hw
  refine ⟨hw, rfl, ?_, key.2.2.1, (key.2.2.2 2).2.2⟩
  rw [(key.1 rfl).1]

/-! ## Evaluations of the payload thunk -/

theorem payloadEvals_append (w w' : Trace) :
    payloadEvals (w ++ w') = payloadEvals w + payloadEvals w' := by
  simp [payloadEvals, List.countP_append]

theorem client.build_payload (env : Env) (c : client) (w : Trace) :
    (c.build env w).2.1.payload = c.payload := by
  rcases (client.build_frame env c w).1 with h | ⟨host, node, h⟩ <;> rw [h]

theorem client.build_evaluatesInBuild (env : Env) (c : client) (w : Trace) :
    evaluatesInBuild env c w (c.build env w).2.2 := by
  unfold client.build evaluatesInBuild
  rcases hR : env.Remote c.service with err | ⟨host, node⟩ <;> dsimp only
  · exact Or.inl (by simp [payloadEvals, Event.isPayloadEval])
  rcases hP : env.parsePath c.path c.routes with err | path <;> dsimp only
  · exact Or.inl (by simp [payloadEvals, Event.isPayloadEval])
  split
  · exact Or.inl (by simp [payloadEvals, Event.isPayloadEval])
  rename_i hne
  rcases hU : env.makeUrl c.scheme host path c.queries with err | url <;> dsimp only
  · exact Or.inl (by simp [payloadEvals, Event.isPayloadEval])
  have hreach : reachesPayload env c := ⟨host, node, path, url, hR, hP, hne, hU⟩
  rcases c.payload with _ | payload <;> dsimp only
  · rcases env.newRequest c.method url with _ | err <;>
      exact Or.inl (by simp [payloadEvals, Event.isPayloadEval])
  · rcases payload () with err | b <;> dsimp only
    · exact Or.inr ⟨by simp [payloadEvals, Event.isPayloadEval], hreach⟩
    · rcases env.newRequest c.method url with _ | err <;>
        exact Or.inr ⟨by simp [payloadEvals, Event.isPayloadEval], hreach⟩

theorem evaluatesInBuild_append (env : Env) (c : client) (w w' tail : Trace)
    (h : evaluatesInBuild env c w w') (htail : payloadEvals tail = 0) :
    evaluatesInBuild env c w (w' ++ tail) := by
  unfold evaluatesInBuild at h ⊢
  rw [payloadEvals_append, htail]
  exact h

/-- The build of `exec` and `getResp`: on the client with the derived context. -/
theorem client.derived_build (env : Env) (c : client) (w : Trace) (hasCancel : Bool) :
    evaluatesInBuild env c w ((c.deriveCtx hasCancel).1.build env w).2.2 ∧
      ((c.deriveCtx hasCancel).1.build env w).2.1.payload = c.payload := by
  obtain ⟨ctx, hctx⟩ := client.deriveCtx_frame c hasCancel
  rw [hctx]
  exact ⟨client.build_evaluatesInBuild env { c with ctx := ctx } w,
    client.build_payload env { c with ctx := ctx } w⟩

theorem client.exec_payload (env : Env) (c : client) (w : Trace) (hasCancel : Bool) :
    evaluatesInBuild env c w (c.exec env w hasCancel).w ∧
      (c.exec env w hasCancel).c.payload = c.payload := by
  unfold client.exec
  cases h : c.errInProcess with
  | some e => exact ⟨Or.inl rfl, rfl⟩
  | none =>
    dsimp only
    obtain ⟨hev, hpay⟩ := client.derived_build env c w hasCancel
    rcases hb : (c.deriveCtx hasCancel).1.build env w with ⟨res, c2, w2⟩
    rw [hb] at hev hpay
    dsimp only at hev hpay
    rcases res with err | request <;> dsimp only
    · exact ⟨hev, hpay⟩
    rcases env.httpDo request with err | resp <;> dsimp only
    · exact ⟨evaluatesInBuild_append env c w w2 _ hev (by simp [payloadEvals, Event.isPayloadEval]),
        hpay⟩
    split
    · exact ⟨evaluatesInBuild_append env c w w2 _ hev (by simp [payloadEvals, Event.isPayloadEval]),
        hpay⟩
    rcases resp.Body with err | rsp <;> dsimp only
    · refine ⟨?_, hpay⟩
      rw [List.append_assoc]
      exact evaluatesInBuild_append env c w w2 _ hev (by simp [payloadEvals, Event.isPayloadEval])
    rcases env.unmarshal rsp with err | v <;> dsimp only
    · refine ⟨?_, hpay⟩
      rw [List.append_assoc, List.append_assoc, List.append_assoc]
      exact evaluatesInBuild_append env c w w2 _ hev (by simp [payloadEvals, Event.isPayloadEval])
    · refine ⟨?_, hpay⟩
      rw [List.append_assoc, List.append_assoc, List.append_assoc]
      exact evaluatesInBuild_append env c w w2 _ hev (by simp [payloadEvals, Event.isPayloadEval])

theorem client.getResp_payload (env : Env) (c : client) (w : Trace) (hasCancel : Bool) :
    evaluatesInBuild env c w (c.getResp env w hasCancel).w ∧
      (c.getResp env w hasCancel).c.payload = c.payload := by
  unfold client.getResp
  cases h : c.errInProcess with
  | some e => exact ⟨Or.inl rfl, rfl⟩
  | none =>
    dsimp only
    obtain ⟨hev, hpay⟩ := client.derived_build env c w hasCancel
    rcases hb : (c.deriveCtx hasCancel).1.build env w with ⟨res, c2, w2⟩
    rw [hb] at hev hpay
    dsimp only at hev hpay
    rcases res with err | request <;> dsimp only
    · exact ⟨hev, hpay⟩
    rcases env.httpDo request with err | resp <;> dsimp only <;>
      exact ⟨evaluatesInBuild_append env c w w2 _ hev
        (by simp [payloadEvals, Event.isPayloadEval]), hpay⟩

theorem client.Exec_payload (env : Env) (flags : LogFlags) (c : client) (w : Trace) :
    evaluatesInBuild env c w (c.Exec env flags w).w := by
  unfold client.Exec
  cases hc : c.useCircuit
  · simp only [Bool.not_false, if_true, client.processExecMonitorReport,
      client.reportErrorToMonitor, client.reportSuccessToMonitor]
    have hev := (client.exec_payload env c w false).1
    generalize c.exec env w false = r at hev ⊢
    obtain ⟨st, er, out, cancel, c2, w2⟩ := r
    dsimp only at hev ⊢
    unfold evaluatesInBuild at hev ⊢
    rcases er with _ | e <;> cases env.monitorEnabled <;> cases flags.doLogger <;>
      simpa [payloadEvals, List.countP_append, Event.isPayloadEval] using hev
  · simp only [Bool.not_true, Bool.false_eq_true, if_false, client.updateHystrix,
      client.processExecMonitorReport, client.reportErrorToMonitor,
      client.reportSuccessToMonitor]
    have hev := (client.exec_payload env c
      (w ++ [Event.configureCommand c.hytrixCommand c.circuitConfig] ++
        [Event.hystrixDo c.hytrixCommand c.fallback]) true).1
    rcases env.circuit c.hytrixCommand with _ | err <;> dsimp only
    · generalize c.exec env
        (w ++ [Event.configureCommand c.hytrixCommand c.circuitConfig] ++
          [Event.hystrixDo c.hytrixCommand c.fallback]) true = r at hev ⊢
      obtain ⟨st, er, out, cancel, c2, w2⟩ := r
      dsimp only at hev ⊢
      unfold evaluatesInBuild at hev ⊢
      rcases er with _ | e <;> dsimp only
      · cases env.monitorEnabled <;> cases flags.doLogger <;>
          simpa [payloadEvals, List.countP_append, Event.isPayloadEval] using hev
      · rcases env.tryFallback c.fallback e with _ | e2 <;> rcases cancel with _ | cx <;>
          cases env.monitorEnabled <;> cases flags.doLogger <;>
          simpa [payloadEvals, List.countP_append, Event.isPayloadEval] using hev
    · unfold evaluatesInBuild
      rcases env.tryFallback c.fallback err with _ | e2 <;>
        cases env.monitorEnabled <;> cases flags.doLogger <;>
        simp [payloadEvals, List.countP_append, Event.isPayloadEval]

theorem client.response_payload (env : Env) (c : client) (w : Trace) :
    ∃ w1, evaluatesInBuild env c w w1 ∧
      ∀ flags : LogFlags,
        payloadEvals (c.response env flags w).w = payloadEvals w1 + loggedEvals flags c := by
  cases hc : c.useCircuit
  · refine ⟨(c.getResp env w false).w, (client.getResp_payload env c w false).1, ?_⟩
    intro flags
    unfold client.response loggedEvals
    simp only [hc, Bool.not_false, if_true, client.processResponseMonitorReport,
      client.reportErrorToMonitor]
    have hpay := (client.getResp_payload env c w false).2
    generalize c.getResp env w false = r at hpay ⊢
    obtain ⟨resp, er, cancel, c2, w2⟩ := r
    dsimp only at hpay ⊢
    rw [hpay]
    rcases c.payload with _ | pl <;> rcases resp with _ | resp <;>
      cases env.monitorEnabled <;> cases hl : flags.doLogger <;>
      cases hp : flags.doLoggerParam <;>
      simp [payloadEvals, List.countP_append, Event.isPayloadEval]
  · have hw0 : payloadEvals (w ++ [Event.configureCommand c.hytrixCommand c.circuitConfig] ++
        [Event.hystrixDo c.hytrixCommand c.fallback]) = payloadEvals w := by
      simp [payloadEvals, List.countP_append, Event.isPayloadEval]
    rcases hcir : env.circuit c.hytrixCommand with _ | err
    · have hget := client.getResp_payload env c
        (w ++ [Event.configureCommand c.hytrixCommand c.circuitConfig] ++
          [Event.hystrixDo c.hytrixCommand c.fallback]) true
      refine ⟨(c.getResp env
        (w ++ [Event.configureCommand c.hytrixCommand c.circuitConfig] ++
          [Event.hystrixDo c.hytrixCommand c.fallback]) true).w, ?_, ?_⟩
      · have := hget.1
        unfold evaluatesInBuild at this ⊢
        rw [hw0] at this
        exact this
      · intro flags
        unfold client.response loggedEvals
        simp only [hc, hcir, Bool.not_true, Bool.false_eq_true, if_false, client.updateHystrix,
          client.processResponseMonitorReport, client.reportErrorToMonitor]
        have hpay := hget.2
        generalize c.getResp env
          (w ++ [Event.configureCommand c.hytrixCommand c.circuitConfig] ++
            [Event.hystrixDo c.hytrixCommand c.fallback]) true = r at hpay ⊢
        obtain ⟨resp, er, cancel, c2, w2⟩ := r
        dsimp only at hpay ⊢
        rcases er with _ | e <;> dsimp only
        · rw [hpay]
          rcases c.payload with _ | pl <;> rcases resp with _ | resp <;>
            cases env.monitorEnabled <;> cases hl : flags.doLogger <;>
            cases hp : flags.doLoggerParam <;>
            simp [payloadEvals, List.countP_append, Event.isPayloadEval]
        · rcases env.tryFallback c.fallback e with _ | e2 <;> rcases cancel with _ | cx <;>
            dsimp only <;> rw [hpay] <;>
            rcases c.payload with _ | pl <;> rcases resp with _ | resp <;>
            cases env.monitorEnabled <;> cases hl : flags.doLogger <;>
            cases hp : flags.doLoggerParam <;>
            simp [payloadEvals, List.countP_append, Event.isPayloadEval]
    · refine ⟨w, Or.inl rfl, ?_⟩
      intro flags
      unfold client.response loggedEvals
      simp only [hc, hcir, Bool.not_true, Bool.false_eq_true, if_false, client.updateHystrix,
        client.processResponseMonitorReport, client.reportErrorToMonitor]
      rcases env.tryFallback c.fallback err with _ | e2 <;> dsimp only <;>
        rcases c.payload with _ | pl <;>
        cases env.monitorEnabled <;> cases hl : flags.doLogger <;>
        cases hp : flags.doLoggerParam <;>
        simp [payloadEvals, List.countP_append, Event.isPayloadEval]

/-- C18 (as amended): one call of `Exec` evaluates the payload thunk at most once, and only
in `build` after endpoint resolution, route substitution and URL assembly have succeeded,
whatever the logging flags; one call of `Response` does the same unless both logging flags
are set and the client has a payload: then its logging evaluates the thunk one more time,
after the call and whatever `build` did, which makes at most two evaluations. -/
theorem payload_evaluated_once_but_for_logging (env : Env) (flags : LogFlags) (c : client)
    (w : Trace) :
    evaluatesInBuild env c w (c.Exec env flags w).w ∧
      (loggedEvals flags c = 0 → evaluatesInBuild env c w (c.Response env flags w).w) ∧
      (loggedEvals flags c = 1 →
        evaluatesInBuild env c w (c.Response env { flags with doLoggerParam := false } w).w ∧
          payloadEvals (c.Response env flags w).w =
            payloadEvals (c.Response env { flags with doLoggerParam := false } w).w + 1) ∧
      payloadEvals (c.Response env flags w).w ≤ payloadEvals w + 2 := by
  obtain ⟨w1, hev, hall⟩ := client.response_payload env c w
  have hoff : loggedEvals { flags with doLoggerParam := false } c = 0 := by
    simp [loggedEvals]
  have hplain : payloadEvals (c.Response env { flags with doLoggerParam := false } w).w =
      payloadEvals w1 := by
    rw [client.Response, hall, hoff]; rfl
  have hle : loggedEvals flags c ≤ 1 := by
    unfold loggedEvals
    split <;> omega
  refine ⟨client.Exec_payload env flags c w, ?_, ?_, ?_⟩
  · intro h0
    unfold evaluatesInBuild at hev ⊢
    rw [client.Response, hall, h0]
    exact hev
  · intro h1
    refine ⟨?_, ?_⟩
    · unfold evaluatesInBuild at hev ⊢
      rw [hplain]
      exact hev
    · rw [hplain, client.Response, hall, h1]
  · rw [client.Response, hall]
    unfold evaluatesInBuild at hev
    omega

/-- C18, counterexample: a client with a literal body, both logging flags set; where the
exchange succeeds one call of `Response` evaluates the payload thunk twice, and where
discovery fails it evaluates the thunk once although `build` stopped before the payload. -/
theorem response_logging_evaluates_payload_again :
    postClient.payload.isSome = true ∧
      payloadEvals
        (postClient.Response (worldWith (.ok ("10.0.0.5:8080", "users-1")) 200 [1]) logsBody
          []).w = 2 ∧
      payloadEvals (postClient.Response noDiscovery logsBody []).w = 1 ∧
      (postClient.build noDiscovery []).2.2 = [Event.remote "users"] ∧
      ¬ reachesPayload noDiscovery postClient := by
  refine ⟨rfl, rfl, rfl, rfl, ?_⟩
  rintro ⟨host, node, path, url, hR, _⟩
  exact absurd hR (by simp [noDiscovery, worldWith])

/-! ## Services registered before Init -/

/-- When `Init` returns, the engine is the old one after its own `Init` with the option as
the checks left it, and the checks change the numeric defaults only. -/
theorem Init_ok (x : ParseRspFunc) (o o' : InitOption) (p p' : Package) (err : Option GoError)
    (h : Init x o p = .ok (err, o', p')) :
    err = none ∧ p'.eng = (p.eng.Init o').2 ∧ o'.Discovery = o.Discovery ∧
      o'.LoadBalanceMode = o.LoadBalanceMode ∧ o'.UseTracing = o.UseTracing ∧
      o'.UseCircuit = o.UseCircuit := by
  obtain ⟨dis, lb, tr, dl, dlp, uc, T, M, E, pr⟩ := o
  unfold Init at h
  dsimp only at h
  cases pr <;> cases uc <;>
    simp only [Option.isSome_none, Option.isSome_some, Bool.false_eq_true, if_true,
      if_false] at h <;>
    by_cases hT0 : T = 0 <;> by_cases hT : T < 0 <;> by_cases hM0 : M = 0 <;>
    by_cases hM : M < 0 <;> by_cases hE0 : E = 0 <;> by_cases hE : (E < 0 ∨ E > 100) <;>
    first
    | omega
    | (simp [hT0, hT, hM0, hM, hE0, hE] at h; done)
    | (simp [hT0, hT, hM0, hM, hE0, hE] at h
       obtain ⟨h1, h2, h3⟩ := h
       subst h1 h2 h3
       exact ⟨rfl, rfl, rfl, rfl, rfl, rfl⟩)

theorem engine.Init_serviceMap (e : engine) (o : InitOption) :
    (e.Init o).2.serviceMap = e.serviceMap := rfl

/-- C21: when `Service(name)` (here through `Name`) is called before an `Init` that returns,
every `Service(name)` call after that `Init` returns the service of the earlier call and
changes nothing; if that call created the service, its discovery function, tracing flag,
circuit flag and default circuit config are those the engine had before `Init` (on a fresh
engine: the discovery function that always fails with `ErrDiscoveryNotConfig`, both flags
off, a zero config), not those of the option; a name that is first requested after `Init`
gets a service bound to the option's discovery function and flags and to its numeric
defaults as `Init` stored them. -/
theorem service_registered_before_init_keeps_bindings (x : ParseRspFunc) (p p' : Package)
    (name : String) (o o' : InitOption) (err : Option GoError)
    (hinit : Init x o (Name p name).2 = .ok (err, o', p')) :
    Name p' name = ((Name p name).1, p') ∧
      (∀ n, p'.eng.Services name n = (List.replicate n (Name p name).1, p'.eng)) ∧
      (GoMap.get? p.eng.serviceMap name = none →
        (Name p' name).1 =
          { discovery := p.eng.dv, name := name, useTracing := p.eng.useTracing
            useCircuit := p.eng.useCircuit, circuitConfig := p.eng.circuitConfig }) ∧
      (p.eng = newEngine →
        (Name p' name).1.useTracing = false ∧ (Name p' name).1.useCircuit = false ∧
          (Name p' name).1.circuitConfig =
            { Timeout := 0, MaxConcurrentRequests := 0, ErrorPercentThreshold := 0 } ∧
          ∃ f : DiscoveryFunc, (Name p' name).1.discovery = some f ∧
            ∀ requested, f requested = ([], [], some ErrDiscoveryNotConfig)) ∧
      (∀ other, GoMap.get? (Name p name).2.eng.serviceMap other = none →
        (Name p' other).1 =
          { discovery := o.Discovery, name := other, useTracing := o.UseTracing
            useCircuit := o.UseCircuit
            circuitConfig :=
              { Timeout := Int.tdiv o'.DefaultTimeout Millisecond
                MaxConcurrentRequests := o'.DefaultMaxConcurrentRequests
                ErrorPercentThreshold := o'.DefaultErrorPercentThreshold } }) := by
  obtain ⟨_, heng, hdis, _, htr, huc⟩ := Init_ok x o o' (Name p name).2 p' err hinit
  have hmap : p'.eng.serviceMap = (p.eng.Service name).2.serviceMap := by
    rw [heng]; rfl
  have hreg : GoMap.get? p'.eng.serviceMap name = some (p.eng.Service name).1 := by
    rw [hmap]; exact engine.Service_registers p.eng name
  have hsame : Name p' name = ((Name p name).1, p') := by
    simp [Name, engine.Service_of_registered p'.eng name _ hreg]
  have hfirst : GoMap.get? p.eng.serviceMap name = none →
      (Name p name).1 =
        { discovery := p.eng.dv, name := name, useTracing := p.eng.useTracing
          useCircuit := p.eng.useCircuit, circuitConfig := p.eng.circuitConfig } := by
    intro h
    simp [Name, engine.Service, h, engine.newService]
  refine ⟨hsame, ?_, ?_, ?_, ?_⟩
  · intro n
    exact engine.Services_after_first p'.eng name _ hreg n
  · intro h
    rw [hsame]
    exact hfirst h
  · intro hfresh
    have h : GoMap.get? p.eng.serviceMap name = none := by
      rw [hfresh]; rfl
    rw [hsame]
    dsimp only
    rw [hfirst h, hfresh]
    exact ⟨rfl, rfl, rfl, _, rfl, fun _ => rfl⟩
  · intro other hother
    have hnone : GoMap.get? p'.eng.serviceMap other = none := by
      rw [hmap]; exact hother
    simp only [Name, engine.Service, hnone, engine.newService]
    rw [heng]
    simp [engine.Init, hdis, htr, huc]

theorem service_registered_before_init_keeps_bindings_witness :
    Init standardParser liveOption (Name (Package.initial standardParser) "users").2 =
        .ok (none, liveOptionChecked, livePackage) ∧
      Name livePackage "users" =
        ((Name (Package.initial standardParser) "users").1, livePackage) ∧
      (Name livePackage "users").1.useCircuit = false ∧
      liveOption.UseCircuit = true ∧
      (Name livePackage "orders").1.useCircuit = true ∧
      (Name livePackage "orders").1.circuitConfig =
        { Timeout := 60000, MaxConcurrentRequests := 2000, ErrorPercentThreshold := 20 } := by
  have key := service_registered_before_init_keeps_bindings standardParser
    (Package.initial standardParser) livePackage "users" liveOption liveOptionChecked none rfl
  refine ⟨rfl, key.1, (key.2.2.2.1 rfl).2.1, rfl, ?_, ?_⟩
  · rw [key.2.2.2.2 "orders" rfl]
    rfl
  · rw [key.2.2.2.2 "orders" rfl]
    rfl

end Invoke
